import Mathlib

/-!
Verification of the session/token lifecycle subsystem of the SvelteFireauth
repository. The definitions below are a shallow embedding of the TypeScript
source: the cookie session codec of `DefaultCookieSessionManager`
(src/lib/server/session), the route guards of `AuthMiddleware` and
`createAuthGuard`, the route matchers of the shared utils, and the client
auth store (`createAuthStore`). JavaScript dynamic values flowing out of
`JSON.parse` are modeled by the `Json` type, with absent properties as
`Option.none`. Time (`Date.now()`) is passed explicitly. Network responses
are passed explicitly, and the asynchronous `refreshTokens` is split at its
single `await` point into a start step and a resolve step so that
interleavings with `signOut` can be stated.
-/

/-- Model of a JavaScript value produced by `JSON.parse`: null, booleans,
numbers (the codec only ever produces integral timestamps, so numbers are
modeled as integers), strings, arrays and objects. -/
inductive Json where
  | null
  | bool (b : Bool)
  | num (n : Int)
  | str (s : String)
  | arr (elems : List Json)
  | obj (members : List (String × Json))
deriving Repr

/-- Property access `v[k]` on a parsed JSON value; `none` plays the role of
JavaScript `undefined`. On objects with duplicate keys `JSON.parse` keeps the
last occurrence, hence the lookup on the reversed member list. -/
def jsGet (j : Json) (k : String) : Option Json :=
  match j with
  | .obj ms => List.lookup k ms.reverse
  | _ => none

/-- JavaScript truthiness of a parsed JSON value. -/
def jsTruthy (j : Json) : Bool :=
  match j with
  | .null => false
  | .bool b => b
  | .num n => n != 0
  | .str s => !s.isEmpty
  | .arr _ => true
  | .obj _ => true

/-- Digit characters, by code point. -/
def isDigitChar (c : Char) : Bool := 48 ≤ c.toNat && c.toNat ≤ 57

/-- Leading-digit accumulator used by the numeric coercion and by the JSON
number grammar. -/
def digitsAux : List Char → Nat → Nat × List Char
  | [], acc => (acc, [])
  | c :: rest, acc =>
    if isDigitChar c then digitsAux rest (acc * 10 + (c.toNat - 48)) else (acc, c :: rest)

/-- Parse a complete string as an optionally signed integer numeral; `none`
for anything else. Models JavaScript `ToNumber` on the integral numeric
strings the codec can produce (fractional and exponent forms are not
exercised by the session data, which only carries epoch-millisecond
timestamps). -/
def strToInt (s : List Char) : Option Int :=
  match s with
  | [] => some 0
  | c :: rest =>
    if c.toNat = 45 then
      match rest with
      | [] => none
      | c2 :: _ =>
        if isDigitChar c2 then
          match digitsAux rest 0 with
          | (n, []) => some (-(n : Int))
          | (_, _ :: _) => none
        else none
    else if isDigitChar c then
      match digitsAux s 0 with
      | (n, []) => some ((n : Int))
      | (_, _ :: _) => none
    else none

/-- JavaScript `ToNumber` on the value space reachable through the session
codec, with `none` standing for `NaN` (and for `undefined`, whose `ToNumber`
is `NaN`). Arrays coerce through their string form, which for the empty array
is `""` (numeric value `0`) and for a one-element numeric array is that
number's numeral; other arrays and plain objects coerce to non-numeric
strings and hence to `NaN`. -/
def jsToNumber (v : Option Json) : Option Int :=
  match v with
  | none => none
  | some .null => some 0
  | some (.bool b) => some (if b then 1 else 0)
  | some (.num n) => some n
  | some (.str s) => strToInt s.data
  | some (.arr []) => some 0
  | some (.arr [.num n]) => some n
  | some (.arr _) => none
  | some (.obj _) => none

/-- JavaScript `a > b` with a number on the left; comparisons against `NaN`
(and `undefined`) are false. -/
def jsGT (a : Int) (v : Option Json) : Bool :=
  match jsToNumber v with
  | some n => a > n
  | none => false

/-- Falsy-aware fallback `x || fb` for JavaScript numbers held in optional
fields: `0` and `undefined` select the fallback. -/
def jsOrInt (x : Option Int) (fb : Int) : Int :=
  match x with
  | some v => if v = 0 then fb else v
  | none => fb

/-- Decimal digits of a natural number, most significant first, with
structural fuel so that the kernel can evaluate it; `natDigits` supplies
sufficient fuel. -/
def natDigitsF : Nat → Nat → List Char
  | 0, _ => []
  | fuel + 1, n =>
    if n < 10 then [Char.ofNat (48 + n)]
    else natDigitsF fuel (n / 10) ++ [Char.ofNat (48 + n % 10)]

/-- Decimal digits of a natural number, most significant first. -/
def natDigits (n : Nat) : List Char := natDigitsF (n + 1) n

/-- Decimal numeral of an integer, as printed by `JSON.stringify` for the
integral values the codec produces. -/
def intChars (i : Int) : List Char :=
  if i < 0 then Char.ofNat 45 :: natDigits i.natAbs else natDigits i.toNat

/-- Lower-case hexadecimal digit. -/
def hexChar (n : Nat) : Char := "0123456789abcdef".data.getD n '0'

/-- Escaping of one character inside a JSON string literal, as performed by
`JSON.stringify`: quote and backslash get two-character escapes, the named
control characters get their short escapes, remaining control characters get
`\u00XX`, and everything else is emitted literally. -/
def escapeChar (c : Char) : List Char :=
  if c.toNat = 34 then [Char.ofNat 92, Char.ofNat 34]
  else if c.toNat = 92 then [Char.ofNat 92, Char.ofNat 92]
  else if c.toNat = 8 then [Char.ofNat 92, 'b']
  else if c.toNat = 9 then [Char.ofNat 92, 't']
  else if c.toNat = 10 then [Char.ofNat 92, 'n']
  else if c.toNat = 12 then [Char.ofNat 92, 'f']
  else if c.toNat = 13 then [Char.ofNat 92, 'r']
  else if c.toNat < 32 then
    [Char.ofNat 92, 'u', '0', '0', hexChar (c.toNat / 16), hexChar (c.toNat % 16)]
  else [c]

/-- JSON string literal for the given character content. -/
def quoteChars (s : List Char) : List Char :=
  Char.ofNat 34 :: s.flatMap escapeChar ++ [Char.ofNat 34]

mutual

/-- Serialization of a JSON value, as `JSON.stringify` prints it: no
whitespace, object members in insertion order. -/
def printJson : Json → List Char
  | .null => 'n' :: ['u', 'l', 'l']
  | .bool true => 't' :: ['r', 'u', 'e']
  | .bool false => 'f' :: ['a', 'l', 's', 'e']
  | .num n => intChars n
  | .str s => quoteChars s.data
  | .arr es => Char.ofNat 91 :: printElems es ++ [Char.ofNat 93]
  | .obj ms => Char.ofNat 123 :: printMembers ms ++ [Char.ofNat 125]
termination_by structural j => j

/-- Comma-separated serialization of array elements. -/
def printElems : List Json → List Char
  | [] => []
  | j :: rest =>
    printJson j ++ (if rest.isEmpty then [] else Char.ofNat 44 :: printElems rest)
termination_by structural l => l

/-- Comma-separated serialization of object members. -/
def printMembers : List (String × Json) → List Char
  | [] => []
  | (k, v) :: rest =>
    quoteChars k.data ++ Char.ofNat 58 :: printJson v
      ++ (if rest.isEmpty then [] else Char.ofNat 44 :: printMembers rest)
termination_by structural l => l

end

/-- JSON insignificant whitespace. -/
def isWsChar (c : Char) : Bool :=
  c.toNat = 32 || c.toNat = 9 || c.toNat = 10 || c.toNat = 13

/-- Skip insignificant whitespace. -/
def skipWs (s : List Char) : List Char := s.dropWhile isWsChar

/-- Value of one hexadecimal digit, either case. -/
def hexVal (c : Char) : Option Nat :=
  if 48 ≤ c.toNat ∧ c.toNat ≤ 57 then some (c.toNat - 48)
  else if 97 ≤ c.toNat ∧ c.toNat ≤ 102 then some (c.toNat - 87)
  else if 65 ≤ c.toNat ∧ c.toNat ≤ 70 then some (c.toNat - 55)
  else none

/-- Four hexadecimal digits of a `\u` escape, yielding the denoted
character. -/
def parseHex4 : List Char → Option (Char × List Char)
  | h1 :: h2 :: h3 :: h4 :: r =>
    (hexVal h1).bind fun a =>
      (hexVal h2).bind fun b =>
        (hexVal h3).bind fun c =>
          (hexVal h4).bind fun d =>
            some (Char.ofNat (a * 4096 + b * 256 + c * 16 + d), r)
  | _ => none

/-- One escape sequence after a backslash inside a JSON string literal,
returning the denoted character and the remaining input. -/
def parseEscape : List Char → Option (Char × List Char)
  | [] => none
  | c :: rest =>
    if c.toNat = 34 then some (Char.ofNat 34, rest)
    else if c.toNat = 92 then some (Char.ofNat 92, rest)
    else if c.toNat = 47 then some (Char.ofNat 47, rest)
    else if c = 'b' then some (Char.ofNat 8, rest)
    else if c = 'f' then some (Char.ofNat 12, rest)
    else if c = 'n' then some (Char.ofNat 10, rest)
    else if c = 'r' then some (Char.ofNat 13, rest)
    else if c = 't' then some (Char.ofNat 9, rest)
    else if c = 'u' then parseHex4 rest
    else none

/-- Body of a JSON string literal after its opening quote, up to and past the
closing quote. Fueled for kernel evaluability; one unit of fuel is spent per
denoted character, so fuel exceeding the input length always suffices. -/
def parseStringBody : Nat → List Char → Option (List Char × List Char)
  | 0, _ => none
  | _ + 1, [] => none
  | fuel + 1, c :: rest =>
    if c.toNat = 34 then some ([], rest)
    else if c.toNat = 92 then
      (parseEscape rest).bind fun er =>
        (parseStringBody fuel er.2).map (fun p => (er.1 :: p.1, p.2))
    else (parseStringBody fuel rest).map (fun p => (c :: p.1, p.2))

/-- JSON number: an optionally signed integer numeral (the grammar fragment
the session codec exercises; it only ever writes epoch timestamps). -/
def parseNumber (s : List Char) : Option (Json × List Char) :=
  match s with
  | [] => none
  | c :: rest =>
    if c.toNat = 45 then
      match rest with
      | [] => none
      | c2 :: _ =>
        if isDigitChar c2 then
          match digitsAux rest 0 with
          | (n, r) => some (.num (-(n : Int)), r)
        else none
    else if isDigitChar c then
      match digitsAux s 0 with
      | (n, r) => some (.num ((n : Int)), r)
    else none

/-- Drop one expected punctuation character (given by code point). -/
def stripChar (code : Nat) (s : List Char) : Option (List Char) :=
  match s with
  | [] => none
  | c :: rest => if c.toNat = code then some rest else none

mutual

/-- Recursive-descent JSON value parser, modeling `JSON.parse`. Fueled so the
kernel can evaluate it; `jsonParse` supplies fuel exceeding the input length,
which always suffices because every recursive step consumes input. -/
def parseValue : Nat → List Char → Option (Json × List Char)
  | 0, _ => none
  | fuel + 1, s =>
    let t := skipWs s
    if t.take 4 = ['n', 'u', 'l', 'l'] then some (.null, t.drop 4)
    else if t.take 4 = ['t', 'r', 'u', 'e'] then some (.bool true, t.drop 4)
    else if t.take 5 = ['f', 'a', 'l', 's', 'e'] then some (.bool false, t.drop 5)
    else
      match t with
      | [] => none
      | c :: r =>
        if c.toNat = 34 then
          (parseStringBody fuel r).map (fun p => (.str (String.mk p.1), p.2))
        else if c.toNat = 91 then
          match stripChar 93 (skipWs r) with
          | some r2 => some (.arr [], r2)
          | none => (parseElems fuel (skipWs r)).map (fun p => (.arr p.1, p.2))
        else if c.toNat = 123 then
          match stripChar 125 (skipWs r) with
          | some r2 => some (.obj [], r2)
          | none => (parseMembers fuel (skipWs r)).map (fun p => (.obj p.1, p.2))
        else parseNumber t
termination_by structural fuel => fuel

/-- Non-empty array element list, consuming the closing bracket. -/
def parseElems : Nat → List Char → Option (List Json × List Char)
  | 0, _ => none
  | fuel + 1, s =>
    match parseValue fuel s with
    | none => none
    | some (v, r) =>
      match stripChar 44 (skipWs r) with
      | some r2 => (parseElems fuel r2).map (fun p => (v :: p.1, p.2))
      | none =>
        match stripChar 93 (skipWs r) with
        | some r2 => some ([v], r2)
        | none => none
termination_by structural fuel => fuel

/-- Non-empty object member list, consuming the closing brace. -/
def parseMembers : Nat → List Char → Option (List (String × Json) × List Char)
  | 0, _ => none
  | fuel + 1, s =>
    match stripChar 34 (skipWs s) with
    | none => none
    | some r0 =>
      match parseStringBody fuel r0 with
      | none => none
      | some (k, r1) =>
        match stripChar 58 (skipWs r1) with
        | none => none
        | some r2 =>
          match parseValue fuel r2 with
          | none => none
          | some (v, r3) =>
            match stripChar 44 (skipWs r3) with
            | some r4 => (parseMembers fuel r4).map (fun p => ((String.mk k, v) :: p.1, p.2))
            | none =>
              match stripChar 125 (skipWs r3) with
              | some r4 => some ([(String.mk k, v)], r4)
              | none => none
termination_by structural fuel => fuel

end

/-- Model of `JSON.parse`: parse one value and require only whitespace after
it; `none` models a thrown `SyntaxError`. -/
def jsonParse (s : List Char) : Option Json :=
  match parseValue (s.length + 1) s with
  | some (v, r) => if skipWs r = [] then some v else none
  | none => none

/-- UTF-8 encoding of one character. -/
def utf8EncodeChar (c : Char) : List Nat :=
  let n := c.toNat
  if n < 0x80 then [n]
  else if n < 0x800 then [0xC0 + n / 64, 0x80 + n % 64]
  else if n < 0x10000 then [0xE0 + n / 4096, 0x80 + (n / 64) % 64, 0x80 + n % 64]
  else [0xF0 + n / 262144, 0x80 + (n / 4096) % 64, 0x80 + (n / 64) % 64, 0x80 + n % 64]

/-- UTF-8 encoding of a character sequence, as `Buffer.from(string)`
produces. -/
def utf8Encode (cs : List Char) : List Nat :=
  cs.flatMap utf8EncodeChar

/-- UTF-8 continuation byte test. -/
def isCont (b : Nat) : Bool := 0x80 ≤ b && b < 0xC0

mutual

/-- Total UTF-8 decoding, as `buffer.toString('utf-8')` performs: valid
sequences decode to their scalar value, malformed bytes produce the
replacement character rather than an error. -/
def utf8Decode : List Nat → List Char
  | [] => []
  | b :: bs =>
    if b < 0x80 then Char.ofNat b :: utf8Decode bs
    else if b < 0xC0 then '�' :: utf8Decode bs
    else if b < 0xE0 then utf8Cont1 b bs
    else if b < 0xF0 then utf8Cont2 b bs
    else if b < 0xF8 then utf8Cont3 b bs
    else '�' :: utf8Decode bs
termination_by structural l => l

/-- Continuation of a two-byte UTF-8 sequence. -/
def utf8Cont1 (b : Nat) : List Nat → List Char
  | b1 :: bs =>
    (if isCont b1 then Char.ofNat ((b % 32) * 64 + b1 % 64) else '�') :: utf8Decode bs
  | [] => ['�']
termination_by structural l => l

/-- Continuation of a three-byte UTF-8 sequence. -/
def utf8Cont2 (b : Nat) : List Nat → List Char
  | b1 :: b2 :: bs =>
    (if isCont b1 && isCont b2 then Char.ofNat ((b % 16) * 4096 + (b1 % 64) * 64 + b2 % 64)
     else '�') :: utf8Decode bs
  | _ => ['�']
termination_by structural l => l

/-- Continuation of a four-byte UTF-8 sequence. -/
def utf8Cont3 (b : Nat) : List Nat → List Char
  | b1 :: b2 :: b3 :: bs =>
    (if isCont b1 && isCont b2 && isCont b3 then
      Char.ofNat ((b % 8) * 262144 + (b1 % 64) * 4096 + (b2 % 64) * 64 + b3 % 64)
     else '�') :: utf8Decode bs
  | _ => ['�']
termination_by structural l => l

end

/-- Base64 alphabet. -/
def b64Chars : List Char :=
  "ABCDEFGHIJKLMNOPQRSTUVWXYZabcdefghijklmnopqrstuvwxyz0123456789+/".data

/-- Character for a sextet. -/
def b64Char (n : Nat) : Char := b64Chars.getD n 'A'

/-- Index scan for the base64 alphabet. -/
def b64IndexAux : List Char → Nat → Char → Option Nat
  | [], _, _ => none
  | x :: xs, i, c => if x = c then some i else b64IndexAux xs (i + 1) c

/-- Sextet value of an alphabet character, `none` for padding and any
foreign character. -/
def b64Index (c : Char) : Option Nat := b64IndexAux b64Chars 0 c

/-- Base64 encoding in three-byte groups with padding, as
`buffer.toString('base64')` produces. -/
def b64EncodeChunks : List Nat → List Char
  | [] => []
  | [a] => [b64Char (a / 4), b64Char (a % 4 * 16), '=', '=']
  | [a, b] => [b64Char (a / 4), b64Char (a % 4 * 16 + b / 16), b64Char (b % 16 * 4), '=']
  | a :: b :: c :: rest =>
    b64Char (a / 4) :: b64Char (a % 4 * 16 + b / 16) :: b64Char (b % 16 * 4 + c / 64)
      :: b64Char (c % 64) :: b64EncodeChunks rest

/-- Base64 encoding of a byte sequence. -/
def b64Encode (bytes : List Nat) : List Char := b64EncodeChunks bytes

/-- Sextets of an input, skipping padding and foreign characters as Node's
forgiving `Buffer.from(value, 'base64')` does — it never throws. -/
def b64Sextets (cs : List Char) : List Nat := cs.filterMap b64Index

/-- Bytes of a sextet sequence in four-sextet groups; a trailing lone sextet
carries fewer than eight bits and is dropped. -/
def b64DecodeGroups : List Nat → List Nat
  | [] => []
  | [_] => []
  | [a, b] => [a * 4 + b / 16]
  | [a, b, c] => [a * 4 + b / 16, b % 16 * 16 + c / 4]
  | a :: b :: c :: d :: rest =>
    (a * 4 + b / 16) :: (b % 16 * 16 + c / 4) :: (c % 4 * 64 + d) :: b64DecodeGroups rest

/-- Forgiving base64 decoding, as `Buffer.from(value, 'base64')` performs. -/
def b64Decode (cs : List Char) : List Nat := b64DecodeGroups (b64Sextets cs)

/-- Resolved session cookie configuration (`Required<SessionCookieConfig>`,
the spread of `DEFAULT_SESSION_CONFIG` with any overrides already applied). -/
structure SessionConfig where
  name : String
  maxAge : Int
  path : String
  secure : Bool
  httpOnly : Bool
  sameSite : String

/-- Default session cookie configuration of the server session module. -/
def DEFAULT_SESSION_CONFIG : SessionConfig :=
  SessionConfig.mk "__session" (5 * 24 * 60 * 60) "/" true true "lax"

/-- Server-side `User` record (src/lib/types). Optional interface properties
are `Option`-typed; `undefined` is `none`. -/
structure User where
  uid : String
  email : String
  displayName : Option String
  emailVerified : Bool
  photoURL : Option String
  createdAt : Option String
  lastLoginAt : Option String
  isAnonymous : Option Bool
  accessToken : String
  refreshToken : String
  expiresIn : Option Int
  expirationTime : Option Int

/-- Member list contribution of an object property whose value may be
`undefined`: `JSON.stringify` drops such properties. -/
def optField (k : String) (v : Option Json) : List (String × Json) :=
  match v with
  | some j => [(k, j)]
  | none => []

/-- Session record built by `createSession` from a user at time `tNow`:
`expirationTime` is `user.expirationTime || Date.now() + (user.expiresIn || 3600) * 1000`
and `createdAt` is `Date.now()`. -/
def sessionJson (u : User) (tNow : Int) : Json :=
  .obj ([("uid", .str u.uid), ("email", .str u.email), ("emailVerified", .bool u.emailVerified)]
    ++ optField "displayName" (u.displayName.map .str)
    ++ optField "photoURL" (u.photoURL.map .str)
    ++ [("accessToken", .str u.accessToken), ("refreshToken", .str u.refreshToken),
        ("expirationTime", .num (jsOrInt u.expirationTime (tNow + jsOrInt u.expiresIn 3600 * 1000))),
        ("createdAt", .num tNow)])

/-- Cookie string assembly of `formatCookie`: the named value followed by the
configured attributes, joined by `"; "`. -/
def formatCookie (cfg : SessionConfig) (value : String) : String :=
  cfg.name ++ "=" ++ value ++ "; Path=" ++ cfg.path ++ "; Max-Age=" ++ String.mk (intChars cfg.maxAge)
    ++ "; HttpOnly; SameSite=" ++ cfg.sameSite ++ (if cfg.secure then "; Secure" else "")

/-- Model of `DefaultCookieSessionManager.createSession`: serialize the
session record, base64-encode its UTF-8 bytes and wrap the result in the
cookie attributes. -/
def createSession (cfg : SessionConfig) (u : User) (tNow : Int) : String :=
  formatCookie cfg (String.mk (b64Encode (utf8Encode (printJson (sessionJson u tNow)))))

/-- Scan of `cookieValue.match(new RegExp(name + "=([^;]+)"))`: the first
position at which the literal cookie name, `=`, and at least one non-`;`
character match; the capture extends to the next `;`. -/
def findCookieValue (name : List Char) : List Char → Option (List Char)
  | [] => none
  | c :: t =>
    if (name ++ [Char.ofNat 61]).isPrefixOf (c :: t) then
      let cap := ((c :: t).drop (name.length + 1)).takeWhile (fun ch => ch.toNat ≠ 59)
      if cap = [] then findCookieValue name t else some cap
    else findCookieValue name t

/-- Model of `parseSessionData`: extract the named cookie value, decode it as
base64 and parse the resulting text as JSON. Each failure, including a thrown
`SyntaxError`, is caught and becomes `none`; the base64 step itself never
fails. -/
def parseSessionData (cfg : SessionConfig) (cookieValue : String) : Option Json :=
  match findCookieValue cfg.name.data cookieValue.data with
  | none => none
  | some enc => jsonParse (utf8Decode (b64Decode enc))

/-- Civil date (year, month, day) of a day count relative to 1970-01-01,
using the standard era-based Gregorian algorithm. -/
def civilFromDays (z : Int) : Int × Nat × Nat :=
  let a := z + 719468
  let era := a.fdiv 146097
  let doe := (a - era * 146097).toNat
  let yoe := (doe - doe / 1460 + doe / 36524 - doe / 146096) / 365
  let doy := doe - (365 * yoe + yoe / 4 - yoe / 100)
  let mp := (5 * doy + 2) / 153
  let d := doy - (153 * mp + 2) / 5 + 1
  let m := if mp < 10 then mp + 3 else mp - 9
  ((yoe : Int) + era * 400 + (if m ≤ 2 then 1 else 0), m, d)

/-- Zero-padded decimal of fixed width. -/
def padNum (width : Nat) (n : Nat) : List Char :=
  List.replicate (width - (natDigits n).length) '0' ++ natDigits n

/-- ISO-8601 rendering of an epoch-millisecond timestamp, as
`Date.prototype.toISOString` prints it (years outside 0..9999 use the
expanded six-digit form). -/
def isoChars (t : Int) : List Char :=
  let days := t.fdiv 86400000
  let ms := (t - days * 86400000).toNat
  let c := civilFromDays days
  let y := c.1
  let yearPart :=
    if 0 ≤ y ∧ y ≤ 9999 then padNum 4 y.toNat
    else if y < 0 then Char.ofNat 45 :: padNum 6 y.natAbs
    else Char.ofNat 43 :: padNum 6 y.toNat
  yearPart ++ Char.ofNat 45 :: padNum 2 c.2.1 ++ Char.ofNat 45 :: padNum 2 c.2.2
    ++ 'T' :: padNum 2 (ms / 3600000) ++ Char.ofNat 58 :: padNum 2 (ms % 3600000 / 60000)
    ++ Char.ofNat 58 :: padNum 2 (ms % 60000 / 1000) ++ Char.ofNat 46 :: padNum 3 (ms % 1000)
    ++ ['Z']

/-- Model of `new Date(value).toISOString()` for the values the session
record can hold: numbers within the representable range render as ISO-8601,
`null` and booleans coerce to 0 and 1, and everything else — in particular
`undefined`, which yields an Invalid Date — makes `toISOString` throw a
`RangeError`, modeled as `none`. String date parsing is not modeled: the
codec always writes `createdAt` as a number, so a string here is hand-crafted
input, treated as an invalid date. -/
def jsDateToISO (v : Option Json) : Option (List Char) :=
  match v with
  | some (.num n) =>
    if -8640000000000000 ≤ n ∧ n ≤ 8640000000000000 then some (isoChars n) else none
  | some .null => some (isoChars 0)
  | some (.bool b) => some (isoChars (if b then 1 else 0))
  | _ => none

/-- Object literal returned by `sessionDataToUser`: each property holds
whatever the parsed session record held (possibly `undefined`), while
`expiresIn`, `createdAt` and `isAnonymous` are recomputed. `expiresIn` is
`Math.floor((expirationTime - Date.now()) / 1000)`, a number or `NaN`
(modeled as `none`); `createdAt` is always a fresh ISO string; `isAnonymous`
is the literal `false`. -/
structure JsUser where
  uid : Option Json
  email : Option Json
  emailVerified : Option Json
  displayName : Option Json
  photoURL : Option Json
  accessToken : Option Json
  refreshToken : Option Json
  expirationTime : Option Json
  expiresIn : Option Int
  createdAt : String
  isAnonymous : Bool
deriving Repr

/-- Model of `sessionDataToUser`: project the parsed record's properties and
recompute `expiresIn`, `createdAt` and `isAnonymous`; `none` models the
`RangeError` thrown by `toISOString` on an invalid `createdAt`, which the
caller's catch turns into a null session. -/
def sessionDataToUser (sd : Json) (tNow : Int) : Option JsUser :=
  match jsDateToISO (jsGet sd "createdAt") with
  | none => none
  | some iso =>
    some (JsUser.mk (jsGet sd "uid") (jsGet sd "email") (jsGet sd "emailVerified")
      (jsGet sd "displayName") (jsGet sd "photoURL") (jsGet sd "accessToken")
      (jsGet sd "refreshToken") (jsGet sd "expirationTime")
      ((jsToNumber (jsGet sd "expirationTime")).map (fun t => (t - tNow).fdiv 1000))
      (String.mk iso) false)

/-- Model of `DefaultCookieSessionManager.verifySession`: parse the session
record (`null` on any parse failure), reject falsy records, reject expired
records (`Date.now() > expirationTime`, false against a missing field), and
convert to a user object; a conversion throw is caught and yields `null`. -/
def verifySession (cfg : SessionConfig) (cookieValue : String) (tNow : Int) : Option JsUser :=
  match parseSessionData cfg cookieValue with
  | none => none
  | some sd =>
    if jsTruthy sd = false then none
    else if jsGT tNow (jsGet sd "expirationTime") then none
    else sessionDataToUser sd tNow

/-- Model of `isTokenExpired` from the shared utils:
`Date.now() >= expiresAt`. -/
def isTokenExpired (tNow expiresAt : Int) : Bool := tNow ≥ expiresAt

/-- Model of `willTokenExpireSoon` from the shared utils:
`Date.now() + bufferMs >= expiresAt`, with a default buffer of five
minutes. -/
def willTokenExpireSoon (tNow expiresAt bufferMs : Int) : Bool := tNow + bufferMs ≥ expiresAt

/-- Prefix test on strings (`String.startsWith`), phrased over the character
lists so that the kernel can evaluate it. -/
def strStartsWith (s pre : String) : Bool := pre.data.isPrefixOf s.data

/-- Suffix test on strings (`String.endsWith`), phrased over the character
lists so that the kernel can evaluate it. -/
def strEndsWith (s suf : String) : Bool := suf.data.isSuffixOf s.data

/-- JavaScript `slice(0, -n)`: drop the last `n` characters. -/
def strDropRight (s : String) (n : Nat) : String :=
  String.mk (s.data.take (s.data.length - n))

/-- Model of `matchRoute` from the shared utils: exact equality, or prefix
match for a pattern with slash-asterisk suffix. -/
def matchRoute (pathname pattern : String) : Bool :=
  if pattern = pathname then true
  else if strEndsWith pattern "/*" then strStartsWith pathname (strDropRight pattern 2)
  else false

/-- Model of `matchesAnyRoute` from the shared utils: `patterns.some(...)`,
an ordered short-circuit scan. -/
def matchesAnyRoute (pathname : String) (patterns : List String) : Bool :=
  patterns.any (fun pattern => matchRoute pathname pattern)

/-- Per-pattern predicate of `AuthMiddleware.isPublicPath` and
`isProtectedPath`: a pattern with a trailing asterisk matches by prefix after
the asterisk is dropped; any other pattern matches exactly or as a proper
path-segment prefix (`pathname.startsWith(path + '/')`). -/
def pathMatches (pathname pat : String) : Bool :=
  if strEndsWith pat "*" then strStartsWith pathname (strDropRight pat 1)
  else pathname = pat || strStartsWith pathname (pat ++ "/")

/-- Resolved middleware configuration (`Required<AuthMiddlewareConfig>`). -/
structure MiddlewareConfig where
  protectedPaths : List String
  publicPaths : List String
  loginPath : String
  redirectPath : String
  autoRefresh : Bool

/-- Default middleware configuration. -/
def DEFAULT_MIDDLEWARE_CONFIG : MiddlewareConfig :=
  MiddlewareConfig.mk ["/dashboard", "/profile", "/admin"]
    ["/auth", "/api/auth", "/", "/about", "/contact"] "/auth/signin" "/dashboard" true

/-- Model of `AuthMiddleware.isPublicPath`: ordered `some` over the public
patterns. -/
def isPublicPath (cfg : MiddlewareConfig) (pathname : String) : Bool :=
  cfg.publicPaths.any (fun pat => pathMatches pathname pat)

/-- Model of `AuthMiddleware.isProtectedPath`: ordered `some` over the
protected patterns. -/
def isProtectedPath (cfg : MiddlewareConfig) (pathname : String) : Bool :=
  cfg.protectedPaths.any (fun pat => pathMatches pathname pat)

/-- Outcome of `AuthMiddleware.checkRouteProtection`: either fall through to
the resolver, or answer a 302 whose Location is the configured login path
resolved against the request origin carrying the requested pathname in the
`redirect` query parameter (the URL value is modeled structurally). -/
inductive GuardDecision where
  | proceed
  | redirectToLogin (status : Nat) (loginPath : String) (returnTo : String)
deriving Repr, DecidableEq

/-- Model of `AuthMiddleware.checkRouteProtection`: public paths fall
through; protected paths answer a 302 login redirect for unauthenticated
requests; everything else falls through. -/
def checkRouteProtection (cfg : MiddlewareConfig) (pathname : String) (authenticated : Bool) :
    GuardDecision :=
  if isPublicPath cfg pathname then .proceed
  else if isProtectedPath cfg pathname then
    if authenticated = false then .redirectToLogin 302 cfg.loginPath pathname else .proceed
  else .proceed

/-- Configuration of `createAuthGuard` (hooks module); the optional `verify`
callback is represented by the optional boolean it would produce for the
request at hand. -/
structure AuthGuardConfig where
  protectedRoutes : Option (List String)
  publicRoutes : Option (List String)
  redirectTo : Option String

/-- Outcome of the `createAuthGuard` handle. -/
inductive AuthGuardResult where
  | resolve
  | redirect302 (location : String)
  | unauthorized401
deriving Repr, DecidableEq

/-- Model of `createAuthGuard`: public routes resolve immediately; protected
routes with a failed (or absent) `verify` answer a 302 to `redirectTo` when
that is configured and truthy, and a 401 otherwise; everything else
resolves. -/
def createAuthGuard (cfg : AuthGuardConfig) (pathname : String) (verifyResult : Option Bool) :
    AuthGuardResult :=
  if (match cfg.publicRoutes with
      | some pubs => matchesAnyRoute pathname pubs
      | none => false) then .resolve
  else if (match cfg.protectedRoutes with
      | some prots => matchesAnyRoute pathname prots
      | none => false) then
    if verifyResult.getD false then .resolve
    else
      match cfg.redirectTo with
      | some dest => if dest.isEmpty then .unauthorized401 else .redirect302 dest
      | none => .unauthorized401
  else .resolve

/-- Client-side `User` record of the auth store (shared client types). -/
structure ClientUser where
  localId : String
  email : String
  emailVerified : Bool
  displayName : Option String
  photoUrl : Option String
deriving Repr, DecidableEq

/-- The four localStorage entries the store persists
(`sveltefireauth_user`, `_id_token`, `_refresh_token`, `_expires_at`). -/
structure StorageState where
  user : Option String
  idToken : Option String
  refreshToken : Option String
  expiresAt : Option String
deriving Repr, DecidableEq

/-- Storage with no persisted auth entries. -/
def emptyStorage : StorageState := StorageState.mk none none none none

/-- Serialized form of the client user, as `safeJsonStringify` persists
it. -/
def clientUserJson (u : ClientUser) : Json :=
  .obj ([("localId", .str u.localId), ("email", .str u.email),
    ("emailVerified", .bool u.emailVerified)]
    ++ optField "displayName" (u.displayName.map .str)
    ++ optField "photoUrl" (u.photoUrl.map .str))

/-- Wire response of the token refresh endpoint (`REFRESH_TOKEN`); the wire
carries `expires_in` as a decimal-string number of seconds, modeled here
already parsed. -/
structure RefreshResponse where
  id_token : String
  refresh_token : String
  expires_in : Int
deriving Repr, DecidableEq

/-- Default auto-refresh interval: 55 minutes, in milliseconds. -/
def DEFAULT_REFRESH_INTERVAL : Int := 55 * 60 * 1000

/-- Model of `calculateExpiresAt`: `Date.now() + expiresIn * 1000`. -/
def calculateExpiresAt (expiresIn tNow : Int) : Int := tNow + expiresIn * 1000

/-- State of one `createAuthStore` instance: the writable `AuthState`, the
closure-captured mutable variables (`client`, config flags, the current
tokens, the interval handle), the mirrored localStorage, and an exchange
counter instrumenting how many network token exchanges have been issued. -/
structure StoreState where
  stateUser : Option ClientUser
  stateLoading : Bool
  stateError : Option String
  stateIsAuthenticated : Bool
  clientReady : Bool
  persistence : Bool
  refreshIntervalCfg : Option Int
  currentIdToken : Option String
  currentRefreshToken : Option String
  expiresAt : Option Int
  refreshInterval : Option Int
  storage : StorageState
  exchangeCount : Nat
deriving Repr, DecidableEq

/-- Model of `persistState`: mirror the user and tokens into localStorage
when persistence is configured (the browser environment is assumed). -/
def persistState (s : StoreState) (u : ClientUser) (idTok refTok : String) (expAt : Int) :
    StoreState :=
  if s.persistence then
    let st := StorageState.mk (some (String.mk (printJson (clientUserJson u))))
      (some idTok) (some refTok) (some (String.mk (intChars expAt)))
    { s with storage := st }
  else s

/-- Model of `clearPersistedState`: remove all four entries, unconditionally
on the persistence flag. -/
def clearPersistedState (s : StoreState) : StoreState :=
  { s with storage := emptyStorage }

/-- Model of `setupAutoRefresh`: clear any existing interval, then arm one
`setInterval` whose period is `config.refreshInterval || DEFAULT_REFRESH_INTERVAL`;
the armed period is held in `refreshInterval` (`none` means no timer). -/
def setupAutoRefresh (s : StoreState) : StoreState :=
  { s with refreshInterval := some (jsOrInt s.refreshIntervalCfg DEFAULT_REFRESH_INTERVAL) }

/-- First half of `refreshTokens`, up to its `await`: bail out when the
client or the refresh token is missing (or the token is the empty string,
which is falsy); otherwise issue the network exchange — counted, and
returning the refresh token it was issued with. -/
def refreshStart (s : StoreState) : StoreState × Option String :=
  if s.clientReady = false then (s, none)
  else
    match s.currentRefreshToken with
    | none => (s, none)
    | some rt =>
      if rt.isEmpty then (s, none)
      else ({ s with exchangeCount := s.exchangeCount + 1 }, some rt)

/-- Sign-out as `signOut` performs it: null the token variables, clear the
persisted state and reset the writable state to `initialState`. The interval
handle is not touched. -/
def signOut (s : StoreState) : StoreState :=
  clearPersistedState
    { s with
        currentIdToken := none,
        currentRefreshToken := none,
        expiresAt := none,
        stateUser := none,
        stateLoading := false,
        stateError := none,
        stateIsAuthenticated := false }

/-- Second half of `refreshTokens` on a fulfilled exchange: overwrite the
token variables from the response, and persist only when the store state
still holds a user. A rejected exchange instead runs `signOut` (modeled by
composing `signOut` directly). -/
def refreshResolve (s : StoreState) (r : RefreshResponse) (tNow : Int) : StoreState :=
  let expAt := calculateExpiresAt r.expires_in tNow
  let s1 := { s with
      currentIdToken := some r.id_token,
      currentRefreshToken := some r.refresh_token,
      expiresAt := some expAt }
  match s1.stateUser with
  | some u => persistState s1 u r.id_token r.refresh_token expAt
  | none => s1

/-- One tick of the armed interval: `if (expiresAt && willTokenExpireSoon(expiresAt))`
— note that a null (or zero, hence falsy) `expiresAt` suppresses the
refresh. Returns whether `refreshTokens` is invoked. -/
def timerTickFires (s : StoreState) (tNow : Int) : Bool :=
  match s.expiresAt with
  | some e => if e = 0 then false else willTokenExpireSoon tNow e 300000
  | none => false

/-- Iterated `refreshStart`: n concurrent invocations of `refreshTokens`
interleaved before any of them has resolved (each suspends at its network
call after performing the pre-await half). -/
def refreshStartN : Nat → StoreState → StoreState
  | 0, s => s
  | n + 1, s => refreshStartN n (refreshStart s).1

/-- Input whose head cannot extend a decimal numeral. -/
def headNotDigit : List Char → Bool
  | [] => true
  | c :: _ => !isDigitChar c

/-- Scalar JSON values: the value forms the session record's fields take. -/
def jsonScalar : Json → Bool
  | .null => true
  | .bool _ => true
  | .num _ => true
  | .str _ => true
  | .arr _ => false
  | .obj _ => false

set_option maxRecDepth 400000

/-! Round-trip facts for the byte-level encodings. -/

theorem char_valid_nat (c : Char) :
    c.toNat < 0xD800 ∨ (0xDFFF < c.toNat ∧ c.toNat < 0x110000) := c.valid

theorem utf8_roundtrip (cs : List Char) : utf8Decode (utf8Encode cs) = cs := by
  induction cs with
  | nil => rw [show utf8Encode [] = [] from rfl, utf8Decode]
  | cons c rest ih =>
    have hv := char_valid_nat c
    have hofnat : Char.ofNat c.toNat = c := Char.ofNat_toNat c
    show utf8Decode (utf8EncodeChar c ++ utf8Encode rest) = c :: rest
    unfold utf8EncodeChar
    by_cases h1 : c.toNat < 0x80
    · simp only [h1, if_pos, if_true, ite_true, List.cons_append, List.nil_append]
      rw [utf8Decode]
      simp only [h1, if_true, ite_true, hofnat, ih]
    · by_cases h2 : c.toNat < 0x800
      · simp only [h1, h2, ite_false, ite_true, List.cons_append, List.nil_append]
        rw [utf8Decode]
        rw [if_neg (by omega), if_neg (by omega), if_pos (by omega)]
        rw [utf8Cont1]
        rw [if_pos (by simp only [isCont, Bool.and_eq_true, decide_eq_true_eq]; omega)]
        rw [show (0xC0 + c.toNat / 64) % 32 * 64 + (0x80 + c.toNat % 64) % 64 = c.toNat by omega]
        rw [hofnat, ih]
      · by_cases h3 : c.toNat < 0x10000
        · simp only [h1, h2, h3, ite_false, ite_true, List.cons_append, List.nil_append]
          rw [utf8Decode]
          rw [if_neg (by omega), if_neg (by omega), if_neg (by omega), if_pos (by omega)]
          rw [utf8Cont2]
          rw [if_pos (by simp only [isCont, Bool.and_eq_true, decide_eq_true_eq]; omega)]
          rw [show (0xE0 + c.toNat / 4096) % 16 * 4096
                + (0x80 + c.toNat / 64 % 64) % 64 * 64 + (0x80 + c.toNat % 64) % 64
                = c.toNat by omega]
          rw [hofnat, ih]
        · simp only [h1, h2, h3, ite_false, List.cons_append, List.nil_append]
          rw [utf8Decode]
          rw [if_neg (by omega), if_neg (by omega), if_neg (by omega), if_neg (by omega),
            if_pos (by omega)]
          rw [utf8Cont3]
          rw [if_pos (by simp only [isCont, Bool.and_eq_true, decide_eq_true_eq]; omega)]
          rw [show (0xF0 + c.toNat / 262144) % 8 * 262144
                + (0x80 + c.toNat / 4096 % 64) % 64 * 4096
                + (0x80 + c.toNat / 64 % 64) % 64 * 64 + (0x80 + c.toNat % 64) % 64
                = c.toNat by omega]
          rw [hofnat, ih]

theorem utf8EncodeChar_lt (c : Char) : ∀ b ∈ utf8EncodeChar c, b < 256 := by
  intro b hb
  have hv := char_valid_nat c
  have h4 : c.toNat < 0x110000 := by omega
  unfold utf8EncodeChar at hb
  by_cases h1 : c.toNat < 0x80
  · simp only [h1, if_pos, if_true, ite_true, List.mem_singleton] at hb
    omega
  · by_cases h2 : c.toNat < 0x800
    · simp only [h1, h2, ite_false, ite_true, List.mem_cons,
        List.not_mem_nil, or_false] at hb
      omega
    · by_cases h3 : c.toNat < 0x10000
      · simp only [h1, h2, h3, ite_false, ite_true, List.mem_cons,
          List.not_mem_nil, or_false] at hb
        omega
      · simp only [h1, h2, h3, ite_false, List.mem_cons,
          List.not_mem_nil, or_false] at hb
        omega

theorem utf8Encode_lt (cs : List Char) : ∀ b ∈ utf8Encode cs, b < 256 := by
  intro b hb
  rw [utf8Encode, List.mem_flatMap] at hb
  obtain ⟨c, _, hc⟩ := hb
  exact utf8EncodeChar_lt c b hc

theorem utf8EncodeChar_ne_nil (c : Char) : utf8EncodeChar c ≠ [] := by
  unfold utf8EncodeChar
  by_cases h1 : c.toNat < 0x80
  · simp [h1]
  · by_cases h2 : c.toNat < 0x800
    · simp [h1, h2]
    · by_cases h3 : c.toNat < 0x10000
      · simp [h1, h2, h3]
      · simp [h1, h2, h3]

theorem b64Index_b64Char (n : Nat) (h : n < 64) : b64Index (b64Char n) = some n := by
  have hall : ∀ m, m < 64 → b64Index (b64Char m) = some m := by decide
  exact hall n h

theorem b64Index_pad : b64Index '=' = none := by decide

theorem b64Char_ne_semi (n : Nat) : b64Char n ≠ ';' := by
  by_cases h : n < 64
  · have hall : ∀ m, m < 64 → b64Char m ≠ ';' := by decide
    exact hall n h
  · rw [b64Char, List.getD_eq_default]
    · decide
    · rw [show b64Chars.length = 64 from rfl]
      omega

theorem b64_roundtrip : ∀ (l : List Nat), (∀ b ∈ l, b < 256) → b64Decode (b64Encode l) = l
  | [], _ => by simp [b64Encode, b64EncodeChunks, b64Decode, b64Sextets, b64DecodeGroups]
  | [a], h => by
    have ha : a < 256 := h a (by simp)
    show b64DecodeGroups (b64Sextets (b64EncodeChunks [a])) = [a]
    rw [b64EncodeChunks, b64Sextets]
    simp only [List.filterMap_cons, List.filterMap_nil, b64Index_pad,
      b64Index_b64Char (a / 4) (by omega), b64Index_b64Char (a % 4 * 16) (by omega)]
    simp only [b64DecodeGroups, List.cons.injEq, and_true]
    omega
  | [a, b], h => by
    have ha : a < 256 := h a (by simp)
    have hb : b < 256 := h b (by simp)
    show b64DecodeGroups (b64Sextets (b64EncodeChunks [a, b])) = [a, b]
    rw [b64EncodeChunks, b64Sextets]
    simp only [List.filterMap_cons, List.filterMap_nil, b64Index_pad,
      b64Index_b64Char (a / 4) (by omega), b64Index_b64Char (a % 4 * 16 + b / 16) (by omega),
      b64Index_b64Char (b % 16 * 4) (by omega)]
    simp only [b64DecodeGroups, List.cons.injEq, and_true]
    constructor
    · omega
    · omega
  | a :: b :: c :: rest, h => by
    have ha : a < 256 := h a (by simp)
    have hb : b < 256 := h b (by simp)
    have hc : c < 256 := h c (by simp)
    have ih := b64_roundtrip rest (fun x hx => h x (by simp [hx]))
    show b64DecodeGroups (b64Sextets (b64EncodeChunks (a :: b :: c :: rest))) = a :: b :: c :: rest
    rw [b64EncodeChunks, b64Sextets]
    simp only [List.filterMap_cons,
      b64Index_b64Char (a / 4) (by omega), b64Index_b64Char (a % 4 * 16 + b / 16) (by omega),
      b64Index_b64Char (b % 16 * 4 + c / 64) (by omega), b64Index_b64Char (c % 64) (by omega)]
    simp only [b64DecodeGroups, List.cons.injEq]
    have e1 : a / 4 * 4 + (a % 4 * 16 + b / 16) / 16 = a := by omega
    have e2 : (a % 4 * 16 + b / 16) % 16 * 16 + (b % 16 * 4 + c / 64) / 4 = b := by omega
    have e3 : (b % 16 * 4 + c / 64) % 4 * 64 + c % 64 = c := by omega
    exact ⟨e1, e2, e3, ih⟩

theorem b64Encode_ne_semi (l : List Nat) : ∀ ch ∈ b64Encode l, ch.toNat ≠ 59 := by
  have hchar : ∀ n, (b64Char n).toNat ≠ 59 := by
    intro n hcontra
    apply b64Char_ne_semi n
    rw [← Char.ofNat_toNat (b64Char n), hcontra]
  show ∀ ch ∈ b64EncodeChunks l, ch.toNat ≠ 59
  induction l using b64EncodeChunks.induct with
  | case1 =>
    intro ch hch
    simp [b64EncodeChunks] at hch
  | case2 a =>
    intro ch hch
    rw [b64EncodeChunks] at hch
    simp only [List.mem_cons, List.not_mem_nil, or_false] at hch
    rcases hch with hh | hh | hh | hh <;> subst hh <;> first
      | exact hchar _
      | decide
  | case3 a b =>
    intro ch hch
    rw [b64EncodeChunks] at hch
    simp only [List.mem_cons, List.not_mem_nil, or_false] at hch
    rcases hch with hh | hh | hh | hh <;> subst hh <;> first
      | exact hchar _
      | decide
  | case4 a b c rest ih =>
    intro ch hch
    rw [b64EncodeChunks] at hch
    simp only [List.mem_cons] at hch
    rcases hch with hh | hh | hh | hh | hh
    · subst hh
      exact hchar _
    · subst hh
      exact hchar _
    · subst hh
      exact hchar _
    · subst hh
      exact hchar _
    · exact ih ch hh

theorem b64Encode_ne_nil (l : List Nat) (h : l ≠ []) : b64Encode l ≠ [] := by
  match l with
  | [] => exact absurd rfl h
  | [a] => simp [b64Encode, b64EncodeChunks]
  | [a, b] => simp [b64Encode, b64EncodeChunks]
  | a :: b :: c :: rest => simp [b64Encode, b64EncodeChunks]

/-! Numeral printing and parsing round-trip. -/

theorem toNat_ofNat_small (n : Nat) (h : n < 0xD800) : (Char.ofNat n).toNat = n := by
  have hv : n.isValidChar := Or.inl h
  rw [Char.ofNat, dif_pos hv]
  rfl

theorem natDigitsF_all_digits (fuel n : Nat) :
    ∀ c ∈ natDigitsF fuel n, isDigitChar c = true := by
  induction fuel generalizing n with
  | zero =>
    intro c hc
    simp [natDigitsF] at hc
  | succ f ih =>
    intro c hc
    rw [natDigitsF] at hc
    by_cases h : n < 10
    · simp only [h, if_pos, if_true, ite_true, List.mem_singleton] at hc
      subst hc
      simp only [isDigitChar, toNat_ofNat_small (48 + n) (by omega)]
      simp only [Bool.and_eq_true, decide_eq_true_eq]
      omega
    · simp only [h, ite_false, List.mem_append, List.mem_singleton] at hc
      rcases hc with hc | hc
      · exact ih (n / 10) c hc
      · subst hc
        simp only [isDigitChar, toNat_ofNat_small (48 + n % 10) (by omega)]
        simp only [Bool.and_eq_true, decide_eq_true_eq]
        omega

theorem natDigitsF_ne_nil (fuel n : Nat) (h : n < fuel) : natDigitsF fuel n ≠ [] := by
  match fuel with
  | f + 1 =>
    rw [natDigitsF]
    by_cases hn : n < 10
    · simp [hn]
    · simp [hn]

theorem foldl_natDigitsF (fuel : Nat) :
    ∀ n acc, n < fuel →
      (natDigitsF fuel n).foldl (fun a c => a * 10 + (c.toNat - 48)) acc
        = acc * 10 ^ (natDigitsF fuel n).length + n := by
  induction fuel with
  | zero =>
    intro n acc h
    omega
  | succ f ih =>
    intro n acc h
    rw [natDigitsF]
    by_cases hn : n < 10
    · simp only [hn, if_pos, if_true, ite_true, List.foldl_cons, List.foldl_nil,
        List.length_singleton, pow_one]
      rw [toNat_ofNat_small (48 + n) (by omega)]
      omega
    · have hrec : n / 10 < f := by omega
      simp only [hn, ite_false, List.foldl_append, List.foldl_cons, List.foldl_nil,
        List.length_append, List.length_singleton]
      rw [ih (n / 10) acc hrec]
      rw [toNat_ofNat_small (48 + n % 10) (by omega)]
      have hdm : n / 10 * 10 + (48 + n % 10 - 48) = n := by omega
      calc (acc * 10 ^ (natDigitsF f (n / 10)).length + n / 10) * 10 + (48 + n % 10 - 48)
          = acc * (10 ^ (natDigitsF f (n / 10)).length * 10)
            + (n / 10 * 10 + (48 + n % 10 - 48)) := by ring
        _ = acc * 10 ^ ((natDigitsF f (n / 10)).length + 1) + n := by rw [hdm, pow_succ]

theorem digitsAux_all (ds : List Char) :
    ∀ rest acc, (∀ c ∈ ds, isDigitChar c = true) →
      digitsAux (ds ++ rest) acc
        = digitsAux rest (ds.foldl (fun a c => a * 10 + (c.toNat - 48)) acc) := by
  induction ds with
  | nil =>
    intro rest acc _
    simp
  | cons c t ih =>
    intro rest acc hall
    have hc : isDigitChar c = true := hall c (by simp)
    simp only [List.cons_append, digitsAux, hc, if_pos, if_true, ite_true, List.foldl_cons]
    exact ih rest (acc * 10 + (c.toNat - 48)) (fun x hx => hall x (by simp [hx]))

theorem digitsAux_stop (rest : List Char) (acc : Nat) (h : headNotDigit rest = true) :
    digitsAux rest acc = (acc, rest) := by
  match rest with
  | [] => rfl
  | c :: t =>
    simp only [headNotDigit, Bool.not_eq_true'] at h
    simp [digitsAux, h]

theorem digitsAux_natDigits (n : Nat) (rest : List Char) (h : headNotDigit rest = true) :
    digitsAux (natDigits n ++ rest) 0 = (n, rest) := by
  rw [natDigits, digitsAux_all _ _ _ (natDigitsF_all_digits (n + 1) n),
    foldl_natDigitsF (n + 1) n 0 (by omega), digitsAux_stop rest _ h]
  simp

theorem natDigits_head_digit (n : Nat) :
    ∃ c t, natDigits n = c :: t ∧ isDigitChar c = true := by
  have hne := natDigitsF_ne_nil (n + 1) n (by omega)
  match hnd : natDigits n with
  | [] => exact absurd hnd hne
  | c :: t =>
    refine ⟨c, t, rfl, ?_⟩
    have := natDigitsF_all_digits (n + 1) n c
    rw [show natDigitsF (n + 1) n = natDigits n from rfl, hnd] at this
    exact this (by simp)

theorem parseNumber_intChars (i : Int) (rest : List Char) (h : headNotDigit rest = true) :
    parseNumber (intChars i ++ rest) = some (.num i, rest) := by
  by_cases hi : i < 0
  · rw [intChars, if_pos hi]
    obtain ⟨c, t, hct, hcd⟩ := natDigits_head_digit i.natAbs
    rw [hct]
    simp only [List.cons_append, parseNumber]
    rw [if_pos (toNat_ofNat_small 45 (by omega))]
    rw [if_pos hcd]
    rw [show c :: (t ++ rest) = (c :: t) ++ rest from rfl, ← hct, digitsAux_natDigits _ _ h]
    have : -((i.natAbs : Nat) : Int) = i := by omega
    rw [this]
  · rw [intChars, if_neg hi]
    obtain ⟨c, t, hct, hcd⟩ := natDigits_head_digit i.toNat
    rw [hct]
    simp only [List.cons_append, parseNumber]
    have hc45 : ¬ c.toNat = 45 := by
      simp only [isDigitChar, Bool.and_eq_true, decide_eq_true_eq] at hcd
      omega
    rw [if_neg hc45, if_pos hcd]
    rw [show c :: (t ++ rest) = (c :: t) ++ rest from rfl, ← hct, digitsAux_natDigits _ _ h]
    have : ((i.toNat : Nat) : Int) = i := by omega
    rw [this]

/-! String-literal printing and parsing round-trip. -/

theorem hexVal_hexChar (k : Nat) (h : k < 16) : hexVal (hexChar k) = some k := by
  have hall : ∀ m, m < 16 → hexVal (hexChar m) = some m := by decide
  exact hall k h

theorem length_le_flatMap_escapeChar (s : List Char) :
    s.length ≤ (s.flatMap escapeChar).length := by
  induction s with
  | nil => simp
  | cons c t ih =>
    have hc : 1 ≤ (escapeChar c).length := by
      rw [escapeChar]
      split_ifs <;> simp
    simp only [List.flatMap_cons, List.length_append, List.length_cons]
    omega

theorem parseStringBody_escapeChar (c : Char) (X : List Char) (f : Nat) :
    parseStringBody (f + 1) (escapeChar c ++ X)
      = (parseStringBody f X).map (fun p => (c :: p.1, p.2)) := by
  rw [escapeChar]
  by_cases h34 : c.toNat = 34
  · have hc : c = Char.ofNat 34 := by rw [← Char.ofNat_toNat c, h34]
    subst hc
    simp only [h34, if_pos, if_true, ite_true, List.cons_append, List.nil_append]
    rfl
  · by_cases h92 : c.toNat = 92
    · have hc : c = Char.ofNat 92 := by rw [← Char.ofNat_toNat c, h92]
      subst hc
      simp only [h34, h92, ite_false, if_pos, if_true, ite_true, List.cons_append,
        List.nil_append]
      rfl
    · by_cases h8 : c.toNat = 8
      · have hc : c = Char.ofNat 8 := by rw [← Char.ofNat_toNat c, h8]
        subst hc
        simp only [h34, h92, h8, ite_false, if_pos, if_true, ite_true, List.cons_append,
          List.nil_append]
        rfl
      · by_cases h9 : c.toNat = 9
        · have hc : c = Char.ofNat 9 := by rw [← Char.ofNat_toNat c, h9]
          subst hc
          simp only [h34, h92, h8, h9, ite_false, if_pos, if_true, ite_true,
            List.cons_append, List.nil_append]
          rfl
        · by_cases h10 : c.toNat = 10
          · have hc : c = Char.ofNat 10 := by rw [← Char.ofNat_toNat c, h10]
            subst hc
            simp only [h34, h92, h8, h9, h10, ite_false, if_pos, if_true, ite_true,
              List.cons_append, List.nil_append]
            rfl
          · by_cases h12 : c.toNat = 12
            · have hc : c = Char.ofNat 12 := by rw [← Char.ofNat_toNat c, h12]
              subst hc
              simp only [h34, h92, h8, h9, h10, h12, ite_false, if_pos, if_true, ite_true,
                List.cons_append, List.nil_append]
              rfl
            · by_cases h13 : c.toNat = 13
              · have hc : c = Char.ofNat 13 := by rw [← Char.ofNat_toNat c, h13]
                subst hc
                simp only [h34, h92, h8, h9, h10, h12, h13, ite_false, if_pos, if_true,
                  ite_true, List.cons_append, List.nil_append]
                rfl
              · by_cases hctl : c.toNat < 32
                · simp only [h34, h92, h8, h9, h10, h12, h13, hctl, ite_false, if_pos,
                    if_true, ite_true, List.cons_append, List.nil_append]
                  rw [parseStringBody]
                  rw [if_neg (by decide), if_pos (by decide)]
                  rw [show parseEscape ('u' :: '0' :: '0' :: hexChar (c.toNat / 16)
                        :: hexChar (c.toNat % 16) :: X)
                      = parseHex4 ('0' :: '0' :: hexChar (c.toNat / 16)
                        :: hexChar (c.toNat % 16) :: X) from rfl]
                  rw [parseHex4]
                  rw [show hexVal '0' = some 0 from by decide,
                    hexVal_hexChar (c.toNat / 16) (by omega),
                    hexVal_hexChar (c.toNat % 16) (by omega)]
                  simp only [Option.some_bind]
                  rw [show 0 * 4096 + 0 * 256 + c.toNat / 16 * 16 + c.toNat % 16 = c.toNat
                      by omega]
                  rw [Char.ofNat_toNat c]
                · simp only [h34, h92, h8, h9, h10, h12, h13, hctl, ite_false,
                    List.singleton_append]
                  rw [parseStringBody, if_neg h34, if_neg h92]

theorem parseStringBody_printed (s : List Char) :
    ∀ fuel rest, s.length < fuel →
      parseStringBody fuel (s.flatMap escapeChar ++ Char.ofNat 34 :: rest) = some (s, rest) := by
  induction s with
  | nil =>
    intro fuel rest hf
    match fuel with
    | f + 1 =>
      simp only [List.flatMap_nil, List.nil_append]
      rw [parseStringBody, if_pos (by decide)]
  | cons c t ih =>
    intro fuel rest hf
    match fuel with
    | f + 1 =>
      simp only [List.flatMap_cons, List.append_assoc]
      rw [parseStringBody_escapeChar]
      rw [ih f rest (by simpa using Nat.lt_of_succ_lt_succ hf)]
      rfl

theorem string_mk_data (s : String) : String.mk s.data = s := rfl

theorem skipWs_not_ws (c : Char) (t : List Char) (h : isWsChar c = false) :
    skipWs (c :: t) = c :: t := by
  simp [skipWs, List.dropWhile_cons, h]

theorem parseValue_nonkeyword (c : Char) (Y : List Char) (f : Nat)
    (hn : c.toNat ≠ 110) (ht : c.toNat ≠ 116) (hf102 : c.toNat ≠ 102)
    (hws : isWsChar c = false)
    (h34 : c.toNat ≠ 34) (h91 : c.toNat ≠ 91) (h123 : c.toNat ≠ 123) :
    parseValue (f + 1) (c :: Y) = parseNumber (c :: Y) := by
  have hcn : c ≠ 'n' := by
    intro hcontra
    exact hn (by rw [hcontra]; rfl)
  have hct : c ≠ 't' := by
    intro hcontra
    exact ht (by rw [hcontra]; rfl)
  have hcf : c ≠ 'f' := by
    intro hcontra
    exact hf102 (by rw [hcontra]; rfl)
  simp only [parseValue]
  rw [skipWs_not_ws c Y hws]
  rw [if_neg (by
    simp only [List.take_succ_cons, List.cons.injEq]
    exact fun h => hcn h.1)]
  rw [if_neg (by
    simp only [List.take_succ_cons, List.cons.injEq]
    exact fun h => hct h.1)]
  rw [if_neg (by
    simp only [List.take_succ_cons, List.cons.injEq]
    exact fun h => hcf h.1)]
  simp only [if_neg h34, if_neg h91, if_neg h123]

theorem parseValue_scalar (v : Json) (hv : jsonScalar v = true) :
    ∀ fuel rest, (printJson v).length ≤ fuel → headNotDigit rest = true →
      parseValue fuel (printJson v ++ rest) = some (v, rest) := by
  match v with
  | .null =>
    intro fuel rest hlen _
    have h4 : 4 ≤ fuel := by
      simpa [printJson] using hlen
    match fuel with
    | f + 1 =>
      show parseValue (f + 1) ('n' :: 'u' :: 'l' :: 'l' :: rest) = some (.null, rest)
      rfl
  | .bool true =>
    intro fuel rest hlen _
    have h4 : 4 ≤ fuel := by
      simpa [printJson] using hlen
    match fuel with
    | f + 1 =>
      show parseValue (f + 1) ('t' :: 'r' :: 'u' :: 'e' :: rest) = some (.bool true, rest)
      rfl
  | .bool false =>
    intro fuel rest hlen _
    have h5 : 5 ≤ fuel := by
      simpa [printJson] using hlen
    match fuel with
    | f + 1 =>
      show parseValue (f + 1) ('f' :: 'a' :: 'l' :: 's' :: 'e' :: rest)
        = some (.bool false, rest)
      rfl
  | .num i =>
    intro fuel rest hlen hrest
    have h1 : 1 ≤ fuel := by
      have : 1 ≤ (printJson (.num i)).length := by
        simp only [printJson, intChars]
        split_ifs
        · simp
        · have := natDigitsF_ne_nil (i.toNat + 1) i.toNat (by omega)
          rw [show natDigits i.toNat = natDigitsF (i.toNat + 1) i.toNat from rfl] at *
          cases hnd : natDigitsF (i.toNat + 1) i.toNat with
          | nil => exact absurd hnd this
          | cons a b => simp [hnd]
      omega
    match fuel with
    | f + 1 =>
      show parseValue (f + 1) (printJson (.num i) ++ rest) = some (.num i, rest)
      have hhead : ∃ c Y, printJson (.num i) = c :: Y
          ∧ (c.toNat = 45 ∨ (48 ≤ c.toNat ∧ c.toNat ≤ 57)) := by
        simp only [printJson, intChars]
        split_ifs with hneg
        · exact ⟨Char.ofNat 45, natDigits i.natAbs, rfl,
            Or.inl (toNat_ofNat_small 45 (by omega))⟩
        · obtain ⟨c, t, hct, hcd⟩ := natDigits_head_digit i.toNat
          refine ⟨c, t, hct, Or.inr ?_⟩
          simpa [isDigitChar] using hcd
      obtain ⟨c, Y, hcY, hc⟩ := hhead
      rw [hcY]
      simp only [List.cons_append]
      rw [parseValue_nonkeyword c (Y ++ rest) f (by omega) (by omega) (by omega)
        (by simp only [isWsChar, Bool.or_eq_false_iff, decide_eq_false_iff_not]; omega)
        (by omega) (by omega) (by omega)]
      rw [show c :: (Y ++ rest) = (c :: Y) ++ rest from rfl, ← hcY]
      rw [show printJson (.num i) = intChars i from rfl]
      exact parseNumber_intChars i rest hrest
  | .str s =>
    intro fuel rest hlen _
    have hesc : s.data.length ≤ (s.data.flatMap escapeChar).length :=
      length_le_flatMap_escapeChar s.data
    have hlen2 : (s.data.flatMap escapeChar).length + 2 ≤ fuel := by
      simpa [printJson, quoteChars] using hlen
    match fuel with
    | f + 1 =>
      show parseValue (f + 1) (quoteChars s.data ++ rest) = some (.str s, rest)
      rw [quoteChars]
      simp only [List.cons_append, List.append_assoc, List.singleton_append, List.nil_append]
      simp only [parseValue]
      rw [skipWs_not_ws _ _ (by decide)]
      dsimp only
      rw [if_neg (by
        simp only [List.take_succ_cons, List.cons.injEq]
        exact fun h => absurd h.1 (by decide))]
      rw [if_neg (by
        simp only [List.take_succ_cons, List.cons.injEq]
        exact fun h => absurd h.1 (by decide))]
      rw [if_neg (by
        simp only [List.take_succ_cons, List.cons.injEq]
        exact fun h => absurd h.1 (by decide))]
      rw [if_pos (by decide)]
      rw [parseStringBody_printed s.data f rest (by omega)]
      rfl

theorem intChars_ne_nil (i : Int) : intChars i ≠ [] := by
  rw [intChars]
  split_ifs
  · simp
  · exact natDigitsF_ne_nil (i.toNat + 1) i.toNat (by omega)

theorem printJson_scalar_pos (v : Json) (hv : jsonScalar v = true) :
    1 ≤ (printJson v).length := by
  match v with
  | .null => simp [printJson]
  | .bool true => simp [printJson]
  | .bool false => simp [printJson]
  | .num i =>
    have := intChars_ne_nil i
    rw [show printJson (.num i) = intChars i from rfl]
    cases h : intChars i with
    | nil => exact absurd h this
    | cons a b => simp [h]
  | .str s => simp [printJson, quoteChars]

theorem parseMembers_printed (ms : List (String × Json)) :
    ms ≠ [] → (∀ kv ∈ ms, jsonScalar kv.2 = true) →
    ∀ fuel rest, (printMembers ms).length < fuel →
      parseMembers fuel (printMembers ms ++ Char.ofNat 125 :: rest) = some (ms, rest) := by
  induction ms with
  | nil => exact fun h => absurd rfl h
  | cons kv ms' ih =>
    obtain ⟨k, v⟩ := kv
    intro _ hvals fuel rest hf
    have hvscalar : jsonScalar v = true := hvals (k, v) (by simp)
    have hq : (quoteChars k.data).length = (k.data.flatMap escapeChar).length + 2 := by
      simp [quoteChars]
    have hkesc : k.data.length ≤ (k.data.flatMap escapeChar).length :=
      length_le_flatMap_escapeChar k.data
    have hvpos : 1 ≤ (printJson v).length := printJson_scalar_pos v hvscalar
    have hpm : printMembers ((k, v) :: ms')
        = quoteChars k.data ++ Char.ofNat 58 :: printJson v
          ++ (if ms'.isEmpty then [] else Char.ofNat 44 :: printMembers ms') := by
      rw [printMembers]
    match ms' with
    | [] =>
      have hlen : (printMembers [(k, v)]).length
          = (k.data.flatMap escapeChar).length + 3 + (printJson v).length := by
        rw [hpm]
        simp [hq, List.length_append]
        omega
      match fuel with
      | f + 1 =>
        rw [hpm]
        simp only [List.isEmpty_nil, if_pos, if_true, ite_true, List.append_nil]
        rw [quoteChars]
        simp only [List.cons_append, List.append_assoc, List.singleton_append,
          List.nil_append]
        rw [parseMembers]
        rw [show ∀ X : List Char, skipWs (Char.ofNat 34 :: X) = Char.ofNat 34 :: X
          from fun X => skipWs_not_ws _ _ (by decide)]
        rw [show ∀ X : List Char, stripChar 34 (Char.ofNat 34 :: X) = some X
          from fun X => rfl]
        dsimp only
        rw [parseStringBody_printed k.data f _ (by rw [hlen] at hf; omega)]
        dsimp only
        rw [show ∀ X : List Char, skipWs (Char.ofNat 58 :: X) = Char.ofNat 58 :: X
          from fun X => skipWs_not_ws _ _ (by decide)]
        rw [show ∀ X : List Char, stripChar 58 (Char.ofNat 58 :: X) = some X
          from fun X => rfl]
        dsimp only
        rw [parseValue_scalar v hvscalar f (Char.ofNat 125 :: rest)
          (by rw [hlen] at hf; omega) (by rfl)]
        dsimp only
        rw [show ∀ X : List Char, skipWs (Char.ofNat 125 :: X) = Char.ofNat 125 :: X
          from fun X => skipWs_not_ws _ _ (by decide)]
        rw [show ∀ X : List Char, stripChar 44 (Char.ofNat 125 :: X) = none
          from fun X => rfl]
        dsimp only
        rw [show ∀ X : List Char, stripChar 125 (Char.ofNat 125 :: X) = some X
          from fun X => rfl]
    | kv2 :: mt =>
      have hlen : (printMembers ((k, v) :: kv2 :: mt)).length
          = (k.data.flatMap escapeChar).length + 4 + (printJson v).length
            + (printMembers (kv2 :: mt)).length := by
        rw [hpm]
        simp [hq, List.length_append]
        omega
      match fuel with
      | f + 1 =>
        rw [hpm]
        simp only [List.isEmpty_cons, ite_false, if_neg, Bool.false_eq_true,
          not_false_eq_true]
        rw [quoteChars]
        simp only [List.cons_append, List.append_assoc, List.singleton_append,
          List.nil_append]
        rw [parseMembers]
        rw [show ∀ X : List Char, skipWs (Char.ofNat 34 :: X) = Char.ofNat 34 :: X
          from fun X => skipWs_not_ws _ _ (by decide)]
        rw [show ∀ X : List Char, stripChar 34 (Char.ofNat 34 :: X) = some X
          from fun X => rfl]
        dsimp only
        rw [parseStringBody_printed k.data f _ (by rw [hlen] at hf; omega)]
        dsimp only
        rw [show ∀ X : List Char, skipWs (Char.ofNat 58 :: X) = Char.ofNat 58 :: X
          from fun X => skipWs_not_ws _ _ (by decide)]
        rw [show ∀ X : List Char, stripChar 58 (Char.ofNat 58 :: X) = some X
          from fun X => rfl]
        dsimp only
        rw [parseValue_scalar v hvscalar f
          (Char.ofNat 44 :: (printMembers (kv2 :: mt) ++ Char.ofNat 125 :: rest))
          (by rw [hlen] at hf; omega) (by rfl)]
        dsimp only
        rw [show ∀ X : List Char, skipWs (Char.ofNat 44 :: X) = Char.ofNat 44 :: X
          from fun X => skipWs_not_ws _ _ (by decide)]
        rw [show ∀ X : List Char, stripChar 44 (Char.ofNat 44 :: X) = some X
          from fun X => rfl]
        dsimp only
        rw [ih (by simp) (fun x hx => hvals x (by simp [hx])) f rest
          (by rw [hlen] at hf; omega)]
        rw [string_mk_data]
        rfl

theorem jsonParse_printed_obj (ms : List (String × Json)) (hne : ms ≠ [])
    (hvals : ∀ kv ∈ ms, jsonScalar kv.2 = true) :
    jsonParse (printJson (.obj ms)) = some (.obj ms) := by
  have hpj : printJson (.obj ms) = Char.ofNat 123 :: (printMembers ms ++ [Char.ofNat 125]) := by
    rw [printJson]
    simp
  have hY : ∃ Y, printMembers ms = Char.ofNat 34 :: Y := by
    match ms with
    | (k, v) :: mt =>
      rw [printMembers, quoteChars]
      exact ⟨_, rfl⟩
  obtain ⟨Y, hYeq⟩ := hY
  rw [jsonParse, hpj]
  rw [show (Char.ofNat 123 :: (printMembers ms ++ [Char.ofNat 125])).length + 1
    = (printMembers ms).length + 2 + 1 from by simp]
  rw [show (printMembers ms).length + 2 + 1 = ((printMembers ms).length + 2) + 1 from rfl]
  simp only [parseValue]
  rw [show skipWs (Char.ofNat 123 :: (printMembers ms ++ [Char.ofNat 125]))
    = Char.ofNat 123 :: (printMembers ms ++ [Char.ofNat 125])
    from skipWs_not_ws _ _ (by decide)]
  dsimp only
  rw [if_neg (by
    simp only [List.take_succ_cons, List.cons.injEq]
    exact fun h => absurd h.1 (by decide))]
  rw [if_neg (by
    simp only [List.take_succ_cons, List.cons.injEq]
    exact fun h => absurd h.1 (by decide))]
  rw [if_neg (by
    simp only [List.take_succ_cons, List.cons.injEq]
    exact fun h => absurd h.1 (by decide))]
  rw [if_neg (by decide), if_neg (by decide), if_pos (by decide)]
  rw [hYeq]
  simp only [List.cons_append]
  rw [show skipWs (Char.ofNat 34 :: (Y ++ [Char.ofNat 125]))
    = Char.ofNat 34 :: (Y ++ [Char.ofNat 125]) from skipWs_not_ws _ _ (by decide)]
  rw [show stripChar 125 (Char.ofNat 34 :: (Y ++ [Char.ofNat 125])) = none from rfl]
  dsimp only
  rw [show Char.ofNat 34 :: (Y ++ [Char.ofNat 125])
    = (Char.ofNat 34 :: Y) ++ (Char.ofNat 125 :: []) from by simp]
  rw [← hYeq]
  rw [parseMembers_printed ms hne hvals ((printMembers ms).length + 2) [] (by omega)]
  rfl

/-! Cookie assembly and extraction. -/

theorem takeWhile_semi (v t : List Char) (hall : ∀ c ∈ v, c.toNat ≠ 59) :
    (v ++ Char.ofNat 59 :: t).takeWhile (fun ch => ch.toNat ≠ 59) = v := by
  induction v with
  | nil =>
    simp [List.takeWhile_cons]
  | cons c cs ih =>
    have hc : c.toNat ≠ 59 := hall c (by simp)
    simp only [List.cons_append, List.takeWhile_cons]
    rw [if_pos (by simpa using hc)]
    rw [ih (fun x hx => hall x (by simp [hx]))]

theorem findCookieValue_found (name v tail2 : List Char) (hv : v ≠ [])
    (hall : ∀ c ∈ v, c.toNat ≠ 59) :
    findCookieValue name (name ++ Char.ofNat 61 :: (v ++ Char.ofNat 59 :: tail2)) = some v := by
  have hshape : name ++ Char.ofNat 61 :: (v ++ Char.ofNat 59 :: tail2)
      = (name ++ [Char.ofNat 61]) ++ (v ++ Char.ofNat 59 :: tail2) := by
    simp
  have hprefix : (name ++ [Char.ofNat 61]).isPrefixOf
      (name ++ Char.ofNat 61 :: (v ++ Char.ofNat 59 :: tail2)) = true := by
    rw [hshape, List.isPrefixOf_iff_prefix]
    exact List.prefix_append _ _
  have hcap : ((name ++ Char.ofNat 61 :: (v ++ Char.ofNat 59 :: tail2)).drop
        (name.length + 1)).takeWhile (fun ch => ch.toNat ≠ 59) = v := by
    rw [hshape, show name.length + 1 = (name ++ [Char.ofNat 61]).length from by simp,
      List.drop_left]
    exact takeWhile_semi v tail2 hall
  match hn : name with
  | [] =>
    subst hn
    simp only [List.nil_append] at hprefix hcap ⊢
    rw [findCookieValue]
    simp only [List.nil_append]
    rw [if_pos hprefix]
    rw [hcap]
    rw [if_neg hv]
  | n0 :: nr =>
    subst hn
    simp only [List.cons_append] at hprefix hcap ⊢
    rw [findCookieValue]
    simp only [List.cons_append]
    rw [if_pos hprefix]
    rw [hcap]
    rw [if_neg hv]

theorem utf8Encode_ne_nil (cs : List Char) (h : cs ≠ []) : utf8Encode cs ≠ [] := by
  match cs with
  | [] => exact absurd rfl h
  | c :: t =>
    rw [utf8Encode, List.flatMap_cons]
    intro hcontra
    rcases List.append_eq_nil.mp hcontra with ⟨h1, _⟩
    exact utf8EncodeChar_ne_nil c h1

theorem optField_scalar (k : String) (o : Option String) :
    ∀ kv ∈ optField k (o.map Json.str), jsonScalar kv.2 = true := by
  cases o <;> simp [optField, jsonScalar]

theorem sessionJson_obj (u : User) (t0 : Int) :
    ∃ ms, sessionJson u t0 = .obj ms ∧ ms ≠ []
      ∧ (∀ kv ∈ ms, jsonScalar kv.2 = true) := by
  refine ⟨_, rfl, by simp, ?_⟩
  intro kv hkv
  rcases List.mem_append.mp hkv with h12 | hB
  · rcases List.mem_append.mp h12 with h1 | hF2
    · rcases List.mem_append.mp h1 with hA | hF1
      · simp only [List.mem_cons, List.not_mem_nil, or_false] at hA
        rcases hA with rfl | rfl | rfl <;> rfl
      · exact optField_scalar _ _ kv hF1
    · exact optField_scalar _ _ kv hF2
  · simp only [List.mem_cons, List.not_mem_nil, or_false] at hB
    rcases hB with rfl | rfl | rfl | rfl <;> rfl

theorem formatCookie_default_data (v : String) :
    (formatCookie DEFAULT_SESSION_CONFIG v).data
      = "__session".data ++ Char.ofNat 61 :: (v.data ++ Char.ofNat 59
          :: (" Path=/; Max-Age=432000; HttpOnly; SameSite=lax; Secure").data) := by
  rw [formatCookie]
  rw [show DEFAULT_SESSION_CONFIG.name = "__session" from rfl,
    show DEFAULT_SESSION_CONFIG.path = "/" from rfl,
    show DEFAULT_SESSION_CONFIG.sameSite = "lax" from rfl,
    show String.mk (intChars DEFAULT_SESSION_CONFIG.maxAge) = "432000" from by decide,
    show (if DEFAULT_SESSION_CONFIG.secure then ("; Secure" : String) else "") = "; Secure"
      from rfl]
  simp only [String.data_append]
  simp only [List.append_assoc]
  congr 1

theorem parseSessionData_createSession (u : User) (t0 : Int) :
    parseSessionData DEFAULT_SESSION_CONFIG (createSession DEFAULT_SESSION_CONFIG u t0)
      = some (sessionJson u t0) := by
  obtain ⟨ms, hms, hne, hsc⟩ := sessionJson_obj u t0
  have hpne : printJson (sessionJson u t0) ≠ [] := by
    rw [hms, printJson]
    simp
  have hbytes : utf8Encode (printJson (sessionJson u t0)) ≠ [] :=
    utf8Encode_ne_nil _ hpne
  rw [parseSessionData, createSession]
  rw [formatCookie_default_data]
  rw [show (String.mk (b64Encode (utf8Encode (printJson (sessionJson u t0))))).data
      = b64Encode (utf8Encode (printJson (sessionJson u t0))) from rfl]
  rw [show DEFAULT_SESSION_CONFIG.name = "__session" from rfl]
  rw [findCookieValue_found _ _ _ (b64Encode_ne_nil _ hbytes) (b64Encode_ne_semi _)]
  dsimp only
  rw [b64_roundtrip _ (utf8Encode_lt _)]
  rw [utf8_roundtrip]
  rw [hms, jsonParse_printed_obj ms hne hsc]

theorem jsGet_sessionJson (u : User) (t0 : Int) :
    jsGet (sessionJson u t0) "uid" = some (.str u.uid)
    ∧ jsGet (sessionJson u t0) "email" = some (.str u.email)
    ∧ jsGet (sessionJson u t0) "emailVerified" = some (.bool u.emailVerified)
    ∧ jsGet (sessionJson u t0) "displayName" = u.displayName.map Json.str
    ∧ jsGet (sessionJson u t0) "photoURL" = u.photoURL.map Json.str
    ∧ jsGet (sessionJson u t0) "accessToken" = some (.str u.accessToken)
    ∧ jsGet (sessionJson u t0) "refreshToken" = some (.str u.refreshToken)
    ∧ jsGet (sessionJson u t0) "expirationTime"
        = some (.num (jsOrInt u.expirationTime (t0 + jsOrInt u.expiresIn 3600 * 1000)))
    ∧ jsGet (sessionJson u t0) "createdAt" = some (.num t0) := by
  cases hdn : u.displayName <;> cases hph : u.photoURL <;>
    rw [sessionJson, hdn, hph] <;>
    exact ⟨rfl, rfl, rfl, rfl, rfl, rfl, rfl, rfl, rfl⟩

theorem jsTruthy_sessionJson (u : User) (t0 : Int) : jsTruthy (sessionJson u t0) = true := by
  rw [sessionJson]
  rfl

theorem verifySession_createSession (u : User) (t0 tNow te : Int)
    (hexp : u.expirationTime = some te) (hte : te ≠ 0)
    (hlive : ¬ tNow > te)
    (ht0a : 0 ≤ t0) (ht0b : t0 ≤ 8640000000000000) :
    verifySession DEFAULT_SESSION_CONFIG (createSession DEFAULT_SESSION_CONFIG u t0) tNow
      = some (JsUser.mk (some (.str u.uid)) (some (.str u.email))
          (some (.bool u.emailVerified)) (u.displayName.map Json.str)
          (u.photoURL.map Json.str) (some (.str u.accessToken))
          (some (.str u.refreshToken)) (some (.num te))
          (some ((te - tNow).fdiv 1000)) (String.mk (isoChars t0)) false) := by
  obtain ⟨g1, g2, g3, g4, g5, g6, g7, g8, g9⟩ := jsGet_sessionJson u t0
  have hE : jsOrInt u.expirationTime (t0 + jsOrInt u.expiresIn 3600 * 1000) = te := by
    rw [hexp, jsOrInt]
    simp [hte]
  rw [hE] at g8
  rw [verifySession, parseSessionData_createSession]
  dsimp only
  rw [jsTruthy_sessionJson]
  rw [if_neg (by simp)]
  rw [show jsGT tNow (jsGet (sessionJson u t0) "expirationTime") = false from by
    rw [g8, jsGT, jsToNumber]
    simp only [decide_eq_false_iff_not]
    exact hlive]
  rw [if_neg (by simp)]
  rw [sessionDataToUser, g9]
  rw [show jsDateToISO (some (.num t0)) = some (isoChars t0) from by
    rw [jsDateToISO]
    rw [if_pos ⟨by omega, by omega⟩]]
  dsimp only
  rw [g1, g2, g3, g4, g5, g6, g7, g8]
  rfl

theorem verifySession_createSession_expired (u : User) (t0 tNow te : Int)
    (hexp : u.expirationTime = some te) (hte : te ≠ 0) (hpast : tNow > te) :
    verifySession DEFAULT_SESSION_CONFIG (createSession DEFAULT_SESSION_CONFIG u t0) tNow
      = none := by
  obtain ⟨_, _, _, _, _, _, _, g8, _⟩ := jsGet_sessionJson u t0
  have hE : jsOrInt u.expirationTime (t0 + jsOrInt u.expiresIn 3600 * 1000) = te := by
    rw [hexp, jsOrInt]
    simp [hte]
  rw [hE] at g8
  rw [verifySession, parseSessionData_createSession]
  dsimp only
  rw [jsTruthy_sessionJson]
  rw [if_neg (by simp)]
  rw [show jsGT tNow (jsGet (sessionJson u t0) "expirationTime") = true from by
    rw [g8, jsGT, jsToNumber]
    simpa using hpast]
  rw [if_pos rfl]

/-! Claim theorems. -/

/-- Claim C1, counterexample: two concurrent `refreshTokens` invocations
against the same authenticated store, both issued before either resolves,
perform two network exchanges — not the one exchange the single-flight
property demands — and both exchanges are issued with the same refresh
token. -/
theorem refreshTokens_two_concurrent_two_exchanges :
    (refreshStartN 2 (StoreState.mk none false none false true true none (some "id0")
      (some "rt") (some 100000) none emptyStorage 0)).exchangeCount = 2
    ∧ (2 : Nat) ≠ 1
    ∧ (refreshStart (StoreState.mk none false none false true true none (some "id0")
        (some "rt") (some 100000) none emptyStorage 0)).2 = some "rt"
    ∧ (refreshStart (refreshStartN 1 (StoreState.mk none false none false true true none
        (some "id0") (some "rt") (some 100000) none emptyStorage 0))).2 = some "rt" := by
  refine ⟨rfl, by decide, rfl, rfl⟩

/-- Claim C1 (corrected): `refreshTokens` has no single-flight
de-duplication. For every store state holding an initialized client and a
non-empty refresh token, N concurrent invocations interleaved before any of
them resolves issue N network exchanges, every one of them carrying the same
refresh token, which remains unchanged until a resolution runs. -/
theorem refreshTokens_no_single_flight (n : Nat) (s : StoreState) (rt : String)
    (hclient : s.clientReady = true) (htok : s.currentRefreshToken = some rt)
    (hne : rt.isEmpty = false) :
    (refreshStartN n s).exchangeCount = s.exchangeCount + n
    ∧ (refreshStartN n s).currentRefreshToken = some rt
    ∧ (refreshStart (refreshStartN n s)).2 = some rt := by
  induction n generalizing s with
  | zero =>
    refine ⟨rfl, htok, ?_⟩
    show (refreshStart s).2 = some rt
    rw [refreshStart, if_neg (by simp [hclient]), htok]
    dsimp only
    rw [if_neg (by simp [hne])]
  | succ m ih =>
    have hstep : (refreshStart s).1
        = { s with exchangeCount := s.exchangeCount + 1 } := by
      rw [refreshStart, if_neg (by simp [hclient]), htok]
      dsimp only
      rw [if_neg (by simp [hne])]
    have h1 : refreshStartN (m + 1) s = refreshStartN m (refreshStart s).1 := rfl
    rw [h1, hstep]
    have := ih { s with exchangeCount := s.exchangeCount + 1 } hclient htok
    obtain ⟨hc, ht, hs⟩ := this
    refine ⟨?_, ht, hs⟩
    rw [hc]
    simp
    omega

/-- Claim C1, witness. -/
theorem refreshTokens_no_single_flight_witness :
    (refreshStartN 2 (StoreState.mk none false none false true true none (some "id0")
      (some "rt") (some 100000) none emptyStorage 0)).exchangeCount = 0 + 2 :=
  (refreshTokens_no_single_flight 2 (StoreState.mk none false none false true true none
    (some "id0") (some "rt") (some 100000) none emptyStorage 0) "rt" rfl rfl rfl).1

/-- Claim C7, counterexample: in the spec's scenario (a bundle expiring in
60 seconds, a five-minute buffer) the claimed timer delay is
`max(0, expiresAt - now - bufferMs) = 0`, but `setupAutoRefresh` arms an
interval whose period is `DEFAULT_REFRESH_INTERVAL` = 3300000 ms, so no
refresh fires immediately. -/
theorem setupAutoRefresh_period_not_delay :
    (setupAutoRefresh (StoreState.mk none false none false true true none (some "id0")
      (some "rt") (some (1000000 + 60000)) none emptyStorage 0)).refreshInterval
      = some 3300000
    ∧ (3300000 : Int) ≠ max 0 ((1000000 + 60000) - 1000000 - 300000)
    ∧ willTokenExpireSoon 1000000 (1000000 + 60000) 300000 = true := by
  refine ⟨rfl, by decide, by decide⟩

/-- Claim C7 (corrected): `setupAutoRefresh` arms exactly one interval timer
whose period is `config.refreshInterval || DEFAULT_REFRESH_INTERVAL`, a value
independent of the bundle's `expiresAt`; in the scenario the bundle already
`willTokenExpireSoon`, so the first tick of the armed interval triggers the
refresh, but nothing fires immediately on arming. -/
theorem setupAutoRefresh_arms_interval (s : StoreState) (tNow : Int) :
    (setupAutoRefresh s).refreshInterval
      = some (jsOrInt s.refreshIntervalCfg DEFAULT_REFRESH_INTERVAL)
    ∧ willTokenExpireSoon tNow (tNow + 60000) 300000 = true
    ∧ (s.expiresAt = some (tNow + 60000) → tNow + 60000 ≠ 0 →
        timerTickFires s tNow = true) := by
  refine ⟨rfl, by simp only [willTokenExpireSoon, ge_iff_le, decide_eq_true_eq]; omega, ?_⟩
  intro hexp hne
  rw [timerTickFires, hexp]
  dsimp only
  rw [if_neg hne]
  simp only [willTokenExpireSoon, ge_iff_le, decide_eq_true_eq]
  omega

/-- Claim C7, witness. -/
theorem setupAutoRefresh_arms_interval_witness :
    timerTickFires (StoreState.mk none false none false true true none (some "id0")
      (some "rt") (some (1000000 + 60000)) none emptyStorage 0) 1000000 = true :=
  ((setupAutoRefresh_arms_interval (StoreState.mk none false none false true true none
    (some "id0") (some "rt") (some (1000000 + 60000)) none emptyStorage 0)
    1000000).2.2) rfl (by decide)

/-- Claim C8, counterexample: sign-out on an initialized store with an armed
auto-refresh interval leaves the interval armed — `signOut` never touches the
timer handle — even though storage and state are cleared. -/
theorem signOut_leaves_timer_armed :
    (signOut (StoreState.mk (some (ClientUser.mk "u" "e@x" false none none)) false none
      true true true none (some "id0") (some "rt") (some 100000) (some 3300000)
      (StorageState.mk (some "{}") (some "id0") (some "rt") (some "100000")) 0)).refreshInterval
      = some 3300000
    ∧ (some (3300000 : Int)) ≠ none
    ∧ (signOut (StoreState.mk (some (ClientUser.mk "u" "e@x" false none none)) false none
        true true true none (some "id0") (some "rt") (some 100000) (some 3300000)
        (StorageState.mk (some "{}") (some "id0") (some "rt") (some "100000")) 0)).storage
      = emptyStorage := by
  refine ⟨rfl, by simp, rfl⟩

/-- Claim C8 (corrected): after `signOut`, durable storage holds no persisted
auth entries, the writable state is unauthenticated with no user, and the
in-memory tokens are cleared; the auto-refresh interval however remains
exactly as armed — only the page-unload handler clears it — and its
subsequent ticks do not invoke a refresh because `expiresAt` is null. -/
theorem signOut_clears_state_not_timer (s : StoreState) (tNow : Int) :
    (signOut s).storage = emptyStorage
    ∧ (signOut s).stateUser = none
    ∧ (signOut s).stateIsAuthenticated = false
    ∧ (signOut s).currentIdToken = none
    ∧ (signOut s).currentRefreshToken = none
    ∧ (signOut s).expiresAt = none
    ∧ (signOut s).refreshInterval = s.refreshInterval
    ∧ timerTickFires (signOut s) tNow = false := by
  refine ⟨rfl, rfl, rfl, rfl, rfl, rfl, rfl, rfl⟩

/-- Claim C9, counterexample: a refresh in flight when `signOut` runs
completes and overwrites the in-memory token variables with its response —
the torn-down store's token state is repopulated, contrary to the claim. -/
theorem inflight_refresh_repopulates_tokens :
    (refreshResolve (signOut (refreshStart (StoreState.mk
        (some (ClientUser.mk "u" "e@x" false none none)) false none true true true none
        (some "id0") (some "rt") (some 100000) (some 3300000) emptyStorage 0)).1)
      (RefreshResponse.mk "newid" "newrt" 3600) 5000).currentIdToken = some "newid"
    ∧ some ("newid" : String) ≠ none := by
  refine ⟨rfl, by simp⟩

/-- Claim C9 (corrected): when `signOut` runs between the start and the
resolution of a refresh, the resolving refresh does not repopulate durable
storage (the persist step is guarded by the store still holding a user) and
the state stays unauthenticated, but it does overwrite the in-memory
`currentIdToken`, `currentRefreshToken` and `expiresAt` with the exchange's
result. -/
theorem inflight_refresh_after_signout (s : StoreState) (r : RefreshResponse) (tNow : Int) :
    (refreshResolve (signOut (refreshStart s).1) r tNow).storage = emptyStorage
    ∧ (refreshResolve (signOut (refreshStart s).1) r tNow).stateUser = none
    ∧ (refreshResolve (signOut (refreshStart s).1) r tNow).stateIsAuthenticated = false
    ∧ (refreshResolve (signOut (refreshStart s).1) r tNow).currentIdToken = some r.id_token
    ∧ (refreshResolve (signOut (refreshStart s).1) r tNow).currentRefreshToken
        = some r.refresh_token
    ∧ (refreshResolve (signOut (refreshStart s).1) r tNow).expiresAt
        = some (calculateExpiresAt r.expires_in tNow) := by
  refine ⟨rfl, rfl, rfl, rfl, rfl, rfl⟩

/-- Claim C2, counterexample: a well-encoded session record that is missing
every required field except `createdAt` — the value is the base64 of the JSON
text for a record holding only `createdAt: 0` — is not rejected:
`verifySession` returns a user object whose `uid` is `undefined`, not
`null`. -/
theorem verifySession_missing_fields_not_null :
    (verifySession DEFAULT_SESSION_CONFIG "__session=eyJjcmVhdGVkQXQiOjB9" 2000).isSome
      = true
    ∧ Option.map JsUser.uid
        (verifySession DEFAULT_SESSION_CONFIG "__session=eyJjcmVhdGVkQXQiOjB9" 2000)
      = some none := by
  exact ⟨rfl, rfl⟩

/-- Claim C2 (corrected): session decoding fails closed on each step it
actually checks — it returns `null` when the named cookie is absent from the
header, when the base64-decoded text fails to parse as JSON (the decoding of
`verifySession` never throws: every failure is caught), when the parsed value
is falsy, and when the record's `createdAt` cannot form a valid date (the
`toISOString` throw is caught by the outer handler). A parsed record missing
other required fields, however, is not rejected. -/
theorem verifySession_fail_closed (s : String) (tNow : Int) :
    (findCookieValue "__session".data s.data = none →
      verifySession DEFAULT_SESSION_CONFIG s tNow = none)
    ∧ (∀ enc, findCookieValue "__session".data s.data = some enc →
        jsonParse (utf8Decode (b64Decode enc)) = none →
        verifySession DEFAULT_SESSION_CONFIG s tNow = none)
    ∧ (∀ sd, parseSessionData DEFAULT_SESSION_CONFIG s = some sd →
        jsTruthy sd = false → verifySession DEFAULT_SESSION_CONFIG s tNow = none)
    ∧ (∀ sd, parseSessionData DEFAULT_SESSION_CONFIG s = some sd →
        jsTruthy sd = true →
        jsGT tNow (jsGet sd "expirationTime") = false →
        jsDateToISO (jsGet sd "createdAt") = none →
        verifySession DEFAULT_SESSION_CONFIG s tNow = none) := by
  have hname : DEFAULT_SESSION_CONFIG.name.data = "__session".data := rfl
  refine ⟨?_, ?_, ?_, ?_⟩
  · intro h
    rw [verifySession, parseSessionData, hname, h]
  · intro enc h1 h2
    rw [verifySession, parseSessionData, hname, h1]
    dsimp only
    rw [h2]
  · intro sd h1 h2
    rw [verifySession, h1]
    dsimp only
    rw [h2]
    rw [if_pos rfl]
  · intro sd h1 h2 h3 h4
    rw [verifySession, h1]
    dsimp only
    rw [h2]
    rw [if_neg (by simp)]
    rw [h3]
    rw [if_neg (by simp)]
    rw [sessionDataToUser, h4]

/-- Claim C2, witness: one concrete input per checked failure mode — no
cookie, garbage that decodes to unparsable text, the JSON literal `null`
(falsy), and the empty record (whose `createdAt` is undefined, so the date
conversion throws and is caught). -/
theorem verifySession_fail_closed_witness :
    verifySession DEFAULT_SESSION_CONFIG "nocookie" 0 = none
    ∧ verifySession DEFAULT_SESSION_CONFIG "__session=!!!" 0 = none
    ∧ verifySession DEFAULT_SESSION_CONFIG "__session=bnVsbA==" 0 = none
    ∧ verifySession DEFAULT_SESSION_CONFIG "__session=e30=" 0 = none := by
  refine ⟨(verifySession_fail_closed "nocookie" 0).1 rfl,
    (verifySession_fail_closed "__session=!!!" 0).2.1 "!!!".data rfl rfl,
    (verifySession_fail_closed "__session=bnVsbA==" 0).2.2.1 Json.null rfl rfl,
    (verifySession_fail_closed "__session=e30=" 0).2.2.2 (Json.obj []) rfl rfl rfl rfl⟩

/-- Claim C3, counterexample: a valid bundle (uid, email, tokens, future
expiration) whose `isAnonymous` is true decodes to a user object with
`isAnonymous` hard-coded to `false`; the codec's round trip is not
field-for-field equal to the original bundle. -/
theorem roundtrip_not_field_for_field :
    Option.map JsUser.isAnonymous
      (verifySession DEFAULT_SESSION_CONFIG
        (createSession DEFAULT_SESSION_CONFIG
          (User.mk "u1" "e@x.com" none true none none none (some true) "acc" "ref" none
            (some 100000)) 0) 1000)
      = some false
    ∧ (User.mk "u1" "e@x.com" none true none none none (some true) "acc" "ref" none
        (some 100000)).isAnonymous = some true := by
  exact ⟨rfl, rfl⟩

/-- Claim C3 (corrected): encoding a valid bundle with `createSession` and
decoding with `verifySession` preserves `uid`, `email`, `emailVerified`,
`displayName`, `photoURL`, `accessToken`, `refreshToken` and
`expirationTime` exactly, but the decoded bundle's `expiresIn` is recomputed
from the expiration and the decode time, its `createdAt` is the ISO rendering
of the session-creation time, and its `isAnonymous` is always `false` — so
the round trip is lawful on the stored fields and only on them. -/
theorem createSession_verifySession_roundtrip (u : User) (t0 tNow te : Int)
    (hexp : u.expirationTime = some te) (hte : te ≠ 0)
    (hlive : ¬ tNow > te)
    (ht0a : 0 ≤ t0) (ht0b : t0 ≤ 8640000000000000) :
    verifySession DEFAULT_SESSION_CONFIG (createSession DEFAULT_SESSION_CONFIG u t0) tNow
      = some (JsUser.mk (some (.str u.uid)) (some (.str u.email))
          (some (.bool u.emailVerified)) (u.displayName.map Json.str)
          (u.photoURL.map Json.str) (some (.str u.accessToken))
          (some (.str u.refreshToken)) (some (.num te))
          (some ((te - tNow).fdiv 1000)) (String.mk (isoChars t0)) false) :=
  verifySession_createSession u t0 tNow te hexp hte hlive ht0a ht0b

/-- Claim C3, witness. -/
theorem createSession_verifySession_roundtrip_witness :
    verifySession DEFAULT_SESSION_CONFIG
      (createSession DEFAULT_SESSION_CONFIG
        (User.mk "u1" "e@x.com" (some "Dave") true none none none none "acc" "ref" none
          (some 100000)) 0) 1000
      = some (JsUser.mk (some (.str "u1")) (some (.str "e@x.com")) (some (.bool true))
          (some (.str "Dave")) none (some (.str "acc")) (some (.str "ref"))
          (some (.num 100000)) (some 99) "1970-01-01T00:00:00.000Z" false) :=
  createSession_verifySession_roundtrip
    (User.mk "u1" "e@x.com" (some "Dave") true none none none none "acc" "ref" none
      (some 100000)) 0 1000 100000 rfl (by decide) (by decide) (by decide) (by decide)

/-- Claim C4, counterexample: a well-formed envelope whose expiration lies in
the past decodes to `null` — not to the contained bundle, as the claim
states; `verifySession` checks expiry itself and fails closed. -/
theorem verifySession_expired_is_null :
    verifySession DEFAULT_SESSION_CONFIG
      (createSession DEFAULT_SESSION_CONFIG
        (User.mk "u1" "e@x.com" none true none none none none "acc" "ref" none
          (some 100000)) 0) 200000
      = none := by
  exact verifySession_createSession_expired
    (User.mk "u1" "e@x.com" none true none none none none "acc" "ref" none (some 100000))
    0 200000 100000 rfl (by decide) (by decide)

/-- Claim C4 (corrected): for every well-formed envelope whose
`expirationTime` lies strictly in the past, `verifySession` returns `null`
(the expiry check `Date.now() > expirationTime` fails the session closed),
and the shared liveness check `isTokenExpired` reports the bundle expired at
that time. -/
theorem verifySession_expired_null (u : User) (t0 tNow te : Int)
    (hexp : u.expirationTime = some te) (hte : te ≠ 0) (hpast : tNow > te) :
    verifySession DEFAULT_SESSION_CONFIG (createSession DEFAULT_SESSION_CONFIG u t0) tNow
      = none
    ∧ isTokenExpired tNow te = true := by
  refine ⟨verifySession_createSession_expired u t0 tNow te hexp hte hpast, ?_⟩
  simp only [isTokenExpired, ge_iff_le, decide_eq_true_eq]
  omega

/-- Claim C4, witness. -/
theorem verifySession_expired_null_witness :
    verifySession DEFAULT_SESSION_CONFIG
      (createSession DEFAULT_SESSION_CONFIG
        (User.mk "u2" "e2@x.com" none false none none none none "a2" "r2" none
          (some 50000)) 10) 60000
      = none
    ∧ isTokenExpired 60000 50000 = true :=
  verifySession_expired_null
    (User.mk "u2" "e2@x.com" none false none none none none "a2" "r2" none (some 50000))
    10 60000 50000 rfl (by decide) (by decide)

/-- Claim C5, counterexample: the middleware matcher accepts
`/dashboard/settings` against the plain pattern `/dashboard`, which is
neither an exact match nor a wildcard-suffixed pattern — non-wildcard
patterns also match as path-segment prefixes, unlike the shared
`matchRoute`, which rejects the same pair. -/
theorem pathMatches_segment_counterexample :
    pathMatches "/dashboard/settings" "/dashboard" = true
    ∧ ("/dashboard/settings" : String) ≠ "/dashboard"
    ∧ strEndsWith "/dashboard" "*" = false
    ∧ matchRoute "/dashboard/settings" "/dashboard" = false := by
  refine ⟨by decide, by decide, by decide, by decide⟩

/-- Claim C5 (corrected): matching semantics of the two route matchers. The
shared `matchRoute` matches only by exact string equality or, for a
`/*`-suffixed pattern, by prefix. The middleware's per-pattern matcher
additionally matches a non-wildcard pattern whenever the pathname extends it
by a path segment (`pathname.startsWith(pattern + "/")`), and treats any
trailing `*` as a wildcard. List classification is an ordered existential
scan with no specificity ranking: a list matches exactly when some declared
pattern matches. -/
theorem route_matching_semantics (pathname pattern : String) (patterns : List String)
    (mcfg : MiddlewareConfig) :
    (matchRoute pathname pattern = true ↔
      (pattern = pathname
        ∨ (strEndsWith pattern "/*" = true
            ∧ strStartsWith pathname (strDropRight pattern 2) = true)))
    ∧ (pathMatches pathname pattern = true ↔
        ((strEndsWith pattern "*" = true
            ∧ strStartsWith pathname (strDropRight pattern 1) = true)
          ∨ (strEndsWith pattern "*" = false
              ∧ (pathname = pattern ∨ strStartsWith pathname (pattern ++ "/") = true))))
    ∧ (matchesAnyRoute pathname patterns = true
        ↔ ∃ pat ∈ patterns, matchRoute pathname pat = true)
    ∧ (isProtectedPath mcfg pathname = true
        ↔ ∃ pat ∈ mcfg.protectedPaths, pathMatches pathname pat = true)
    ∧ (isPublicPath mcfg pathname = true
        ↔ ∃ pat ∈ mcfg.publicPaths, pathMatches pathname pat = true) := by
  refine ⟨?_, ?_, ?_, ?_, ?_⟩
  · by_cases h1 : pattern = pathname <;> by_cases h2 : strEndsWith pattern "/*" = true <;>
      simp [matchRoute, h1, h2]
  · by_cases h1 : strEndsWith pattern "*" = true <;> simp [pathMatches, h1]
  · simp [matchesAnyRoute, List.any_eq_true]
  · simp [isProtectedPath, List.any_eq_true]
  · simp [isPublicPath, List.any_eq_true]

/-- Claim C6, counterexample: the hooks-module guard `createAuthGuard`, for
an unauthenticated request to a protected route, answers a plain 401 when no
redirect target is configured, and when one is configured it answers a 302
whose Location is exactly the configured string — the requested pathname is
not carried as a return-to query parameter. -/
theorem createAuthGuard_no_return_to :
    createAuthGuard (AuthGuardConfig.mk (some ["/dashboard"]) none none) "/dashboard" none
      = AuthGuardResult.unauthorized401
    ∧ createAuthGuard (AuthGuardConfig.mk (some ["/dashboard"]) none (some "/auth/signin"))
        "/dashboard" none
      = AuthGuardResult.redirect302 "/auth/signin" := by
  refine ⟨by decide, by decide⟩

/-- Claim C6 (corrected): for a protected, non-public pathname with no
authenticated session, `AuthMiddleware.checkRouteProtection` answers a 302
redirect to the configured login path carrying the requested pathname as the
`redirect` query parameter; `createAuthGuard` instead answers a 302 to the
configured `redirectTo` without any return-to parameter when that is set and
non-empty, and a 401 otherwise. -/
theorem guard_redirect_behavior (mcfg : MiddlewareConfig) (g : AuthGuardConfig)
    (pathname : String) (prots : List String) (verifyResult : Option Bool) :
    (isPublicPath mcfg pathname = false → isProtectedPath mcfg pathname = true →
      checkRouteProtection mcfg pathname false
        = .redirectToLogin 302 mcfg.loginPath pathname)
    ∧ (g.protectedRoutes = some prots → matchesAnyRoute pathname prots = true →
        (g.publicRoutes = none
          ∨ ∃ pubs, g.publicRoutes = some pubs ∧ matchesAnyRoute pathname pubs = false) →
        verifyResult.getD false = false →
        createAuthGuard g pathname verifyResult
          = (match g.redirectTo with
             | some dest =>
               if dest.isEmpty then AuthGuardResult.unauthorized401
               else AuthGuardResult.redirect302 dest
             | none => AuthGuardResult.unauthorized401)) := by
  constructor
  · intro hpub hprot
    rw [checkRouteProtection, if_neg (by simp [hpub]), if_pos hprot, if_pos rfl]
  · intro hprots hmatch hpub hverify
    rw [createAuthGuard]
    rw [if_neg (by
      rcases hpub with h | ⟨pubs, hp, hm⟩
      · rw [h]
        simp
      · rw [hp]
        simp [hm])]
    rw [if_pos (by rw [hprots]; exact hmatch)]
    rw [if_neg (by simp [hverify])]

/-- Claim C6, witness. -/
theorem guard_redirect_behavior_witness :
    checkRouteProtection DEFAULT_MIDDLEWARE_CONFIG "/dashboard" false
      = .redirectToLogin 302 DEFAULT_MIDDLEWARE_CONFIG.loginPath "/dashboard"
    ∧ createAuthGuard (AuthGuardConfig.mk (some ["/dashboard"]) none (some "/auth/signin"))
        "/dashboard" none
      = AuthGuardResult.redirect302 "/auth/signin" := by
  refine ⟨(guard_redirect_behavior DEFAULT_MIDDLEWARE_CONFIG
      (AuthGuardConfig.mk (some ["/dashboard"]) none (some "/auth/signin")) "/dashboard"
      ["/dashboard"] none).1 (by decide) (by decide),
    (guard_redirect_behavior DEFAULT_MIDDLEWARE_CONFIG
      (AuthGuardConfig.mk (some ["/dashboard"]) none (some "/auth/signin")) "/dashboard"
      ["/dashboard"] none).2 rfl (by decide) (Or.inl rfl) rfl⟩

/-- Claim C10 (confirmed): both route guards test the public pattern list
before the protected one, so a pathname matching any public pattern is
allowed through without a redirect regardless of session state and of any
protected pattern it also matches. -/
theorem public_paths_checked_first (mcfg : MiddlewareConfig) (pathname : String)
    (auth : Bool) (g : AuthGuardConfig) (pubs : List String) (verifyResult : Option Bool) :
    (isPublicPath mcfg pathname = true →
      checkRouteProtection mcfg pathname auth = .proceed)
    ∧ (g.publicRoutes = some pubs → matchesAnyRoute pathname pubs = true →
        createAuthGuard g pathname verifyResult = .resolve) := by
  constructor
  · intro hpub
    rw [checkRouteProtection, if_pos hpub]
  · intro hp hm
    rw [createAuthGuard]
    rw [if_pos (by rw [hp]; exact hm)]

/-- Claim C10, witness: a pathname declared in both the public and the
protected lists is allowed through by both guards with no session at all. -/
theorem public_paths_checked_first_witness :
    checkRouteProtection (MiddlewareConfig.mk ["/app"] ["/app"] "/login" "/d" true)
      "/app" false = .proceed
    ∧ createAuthGuard (AuthGuardConfig.mk (some ["/app"]) (some ["/app"]) (some "/login"))
        "/app" none = .resolve := by
  refine ⟨(public_paths_checked_first (MiddlewareConfig.mk ["/app"] ["/app"] "/login" "/d"
      true) "/app" false (AuthGuardConfig.mk (some ["/app"]) (some ["/app"]) (some "/login"))
      ["/app"] none).1 (by decide),
    (public_paths_checked_first (MiddlewareConfig.mk ["/app"] ["/app"] "/login" "/d" true)
      "/app" false (AuthGuardConfig.mk (some ["/app"]) (some ["/app"]) (some "/login"))
      ["/app"] none).2 rfl (by decide)⟩
